import Mathlib

/-!
Shallow embedding of the stage-decomposition engine of `SmiScnData.cpp`
(`SmiCoreData` and `SmiNodeData`).

Values of type `double` are modelled as rationals (`Rat`); the code only
copies and compares them, it performs no floating-point arithmetic.
C-style arrays written by index are modelled either as `List`s (when the
length is structural) or as functions `Nat → _` updated pointwise (for the
index maps, which the source fills by cursor arithmetic).
-/

/-- Pointwise update of an array modelled as a function (`a[i] = v`). -/
def upd {α : Type} (g : Nat → α) (i : Nat) (v : α) : Nat → α :=
  fun j => if j = i then v else g j

/-- Number of indices `i < n` whose stage label `f i` equals `s`.
Mirrors the counting loops `nRowInStage_[rowStage_[i]]++` /
`nColInStage_[colStage_[i]]++` in `SmiCoreData::gutsOfConstructor`. -/
def cnt (f : Nat → Nat) (n s : Nat) : Nat :=
  ((List.range n).filter (fun i => decide (f i = s))).length

/-- Stage pointer array: prefix sums of the per-stage counts over `n`
externals.  Mirrors `stageRowPtr_` / `stageColPtr_` (which the source
computes, mutates during the placement loop, and then resets to exactly
these prefix sums). -/
def basePtr (f : Nat → Nat) (n t : Nat) : Nat :=
  ((List.range t).map (cnt f n)).sum

/-- State of the index placement loop of `gutsOfConstructor`:
the running stage cursor array and the two index maps being filled. -/
structure PlaceState where
  ptr : Nat → Nat
  ex2in : Nat → Nat
  in2ex : Nat → Nat

/-- One iteration of the placement loop:
`ex2in[i] = ptr[f i]; in2ex[ex2in[i]] = i; ptr[f i]++`. -/
def placeStep (f : Nat → Nat) (st : PlaceState) (i : Nat) : PlaceState :=
  { ptr := upd st.ptr (f i) (st.ptr (f i) + 1)
    ex2in := upd st.ex2in i (st.ptr (f i))
    in2ex := upd st.in2ex (st.ptr (f i)) i }

/-- The placement loop run over externals `0, 1, ..., k-1`. -/
def loopTo (f : Nat → Nat) (init : PlaceState) (k : Nat) : PlaceState :=
  (List.range k).foldl (placeStep f) init

/-- The full placement pass over `n` externals, starting from the freshly
computed stage pointers (the `int` arrays `colEx2In_` / `colIn2Ex_` are
allocated uninitialised; unwritten slots are modelled as `0`). -/
def placeAll (f : Nat → Nat) (n : Nat) : PlaceState :=
  loopTo f { ptr := basePtr f n, ex2in := fun _ => 0, in2ex := fun _ => 0 } n

/-- Closed form of the internal index assigned to external `c`:
start of its stage block plus the number of earlier externals in the same
stage. -/
def e2i (f : Nat → Nat) (n c : Nat) : Nat :=
  basePtr f n (f c) + cnt f c (f c)

/-- Scatter sparse entries into a dense buffer: `d[ind[j]] = els[j]` for
each entry in order (an out-of-range index leaves the buffer unchanged;
the C++ original would write out of bounds there). -/
def scatter (d : List Rat) (es : List (Nat × Rat)) : List Rat :=
  es.foldl (fun acc e => acc.set e.1 e.2) d

/-- Modelled from the spec: the default combine rule's dense `Process`
overload (`SmiCoreCombineReplace::Process(double *d1, int o1, ...)`,
declared in the repository but not under `src/`): each sparse entry
overwrites the dense position `index - offset`, all other positions keep
the core value. -/
def processDense (d : List Rat) (o : Nat) (es : List (Nat × Rat)) : List Rat :=
  es.foldl (fun acc e => acc.set (e.1 - o) e.2) d

/-- Modelled from the spec: the sparse/sparse `Process` overload of the
default combine rule (core row merged with node row): the result holds the
union of the present indices, and on a conflict the node entry wins. -/
def processSparse (cr nr : List (Nat × Rat)) : List (Nat × Rat) :=
  cr.filter (fun e => !(nr.any (fun e2 => e2.1 == e.1))) ++ nr

/-- First value stored for index `k` in a sparse vector, if any. -/
def lookupSparse (es : List (Nat × Rat)) (k : Nat) : Option Rat :=
  (es.find? (fun e => e.1 == k)).map (fun e => e.2)

/-- Offsets of the segments of a concatenated buffer:
`cumLens [s0, s1, ...] = [0, |s0|, |s0|+|s1|, ...]`.  This is the sequence
of values the constructor records into `strt_` (`offset_dst` after each
segment). -/
def cumLens {α : Type} : List (List α) → List Nat
  | [] => [0]
  | l :: ls => 0 :: (cumLens ls).map (fun x => l.length + x)

/-- Sort a sparse row by (internal) column index; model of
`CoinPackedVector::sortIncrIndex` as used in `gutsOfConstructor`. -/
def sortPairs (es : List (Nat × Rat)) : List (Nat × Rat) :=
  List.insertionSort (fun a b => a.1 ≤ b.1) es

instance : IsTotal (Nat × Rat) (fun a b => a.1 ≤ b.1) :=
  ⟨fun a b => Nat.le_total a.1 b.1⟩

instance : IsTrans (Nat × Rat) (fun a b => a.1 ≤ b.1) :=
  ⟨fun _ _ _ h1 h2 => Nat.le_trans h1 h2⟩

/-- `SmiNodeData`: one scenario-tree (or core) node's sparse data.
`entries` is the single contiguous buffer (`dels_` / `inds_` fused into
index/value pairs), `strt` the offset array `strt_` of length
`(nrow+1) + 5`, and the `*_strt` fields the recorded positions of the six
segments inside `strt`. -/
structure SmiNodeData where
  stg : Nat
  isCoreNode : Bool
  nrow : Nat
  ncol : Nat
  rowbeg : Nat
  colbeg : Nat
  nels : Nat
  entries : List (Nat × Rat)
  strt : List Nat
  mat_strt : Nat
  clo_strt : Nat
  cup_strt : Nat
  obj_strt : Nat
  rlo_strt : Nat
  rup_strt : Nat
  has_matrix : Bool

/-- Modelled from the spec: the segment-length accessor
`getLength(istart) = strt_[istart+1] - strt_[istart]` declared in
`SmiScnData.hpp` (the header is not under `src/`). -/
def SmiNodeData.getLength (nd : SmiNodeData) (k : Nat) : Nat :=
  nd.strt.getD (k + 1) 0 - nd.strt.getD k 0

/-- Modelled from the spec: the segment accessors of `SmiScnData.hpp`
(`getIndices` / `getElements` fused into one list of pairs): the slice of
the shared buffer between offsets `strt_[k]` and `strt_[k+1]`. -/
def SmiNodeData.seg (nd : SmiNodeData) (k : Nat) : List (Nat × Rat) :=
  (nd.entries.drop (nd.strt.getD k 0)).take (nd.getLength k)

/-- Column lower bound delta segment (`getColLowerLength/Indices/Elements`). -/
def SmiNodeData.cloSeg (nd : SmiNodeData) : List (Nat × Rat) := nd.seg nd.clo_strt

/-- Column upper bound delta segment. -/
def SmiNodeData.cupSeg (nd : SmiNodeData) : List (Nat × Rat) := nd.seg nd.cup_strt

/-- Objective delta segment. -/
def SmiNodeData.objSeg (nd : SmiNodeData) : List (Nat × Rat) := nd.seg nd.obj_strt

/-- Row lower bound delta segment. -/
def SmiNodeData.rloSeg (nd : SmiNodeData) : List (Nat × Rat) := nd.seg nd.rlo_strt

/-- Row upper bound delta segment. -/
def SmiNodeData.rupSeg (nd : SmiNodeData) : List (Nat × Rat) := nd.seg nd.rup_strt

/-- Modelled from the spec: matrix row accessor of `SmiScnData.hpp`
(`getRowLength/Indices/Elements` for a global internal row index `i`):
empty when the node stores no matrix, otherwise the slice at
`getMatStart() + i - rowbeg_`. -/
def SmiNodeData.rowSeg (nd : SmiNodeData) (i : Nat) : List (Nat × Rat) :=
  if nd.has_matrix then nd.seg (nd.mat_strt + (i - nd.rowbeg)) else []

/-- `setCoreNode`: marks a node as holding the core's own stage data. -/
def SmiNodeData.setCoreNode (nd : SmiNodeData) : SmiNodeData :=
  { nd with isCoreNode := true }

/-- In-place re-sort of every stored matrix row by column index; model of
the sorting loop at the end of `gutsOfConstructor` (bound/objective
segments, offsets and all other fields are untouched). -/
def SmiNodeData.sortRows (nd : SmiNodeData) : SmiNodeData :=
  { nd with entries :=
      ((List.range nd.nrow).map (fun i => sortPairs (nd.rowSeg (nd.rowbeg + i)))).flatten
        ++ nd.entries.drop (nd.strt.getD nd.clo_strt 0) }

/-- `SmiCoreData`: the shared deterministic core.  Index maps and stage
maps are modelled as functions (the C arrays are only ever read at
in-range positions), the per-stage dense arrays `cdclo_` ... `cdrup_` as
stage-indexed lists. -/
structure SmiCoreData where
  nrow : Nat
  ncol : Nat
  nstag : Nat
  colStage : Nat → Nat
  rowStage : Nat → Nat
  nColInStage : Nat → Nat
  nRowInStage : Nat → Nat
  stageColPtr : Nat → Nat
  stageRowPtr : Nat → Nat
  colEx2In : Nat → Nat
  colIn2Ex : Nat → Nat
  rowEx2In : Nat → Nat
  rowIn2Ex : Nat → Nat
  cdclo : Nat → List Rat
  cdcup : Nat → List Rat
  cdobj : Nat → List Rat
  cdrlo : Nat → List Rat
  cdrup : Nat → List Rat
  nodes : List SmiNodeData

/-- Filter a sparse column vector to the entries whose column belongs to
stage `stg`, translating external column indices to internal numbering;
this is the copy loop used for `dclo`, `dcup` and `dobj` in the
`SmiNodeData` constructor. -/
def colFiltered (core : SmiCoreData) (stg : Nat) (v : List (Nat × Rat)) : List (Nat × Rat) :=
  (v.filter (fun e => decide (core.colStage e.1 = stg))).map
    (fun e => (core.colEx2In e.1, e.2))

/-- Filter a sparse row vector to the entries whose row belongs to stage
`stg`, translating external row indices to internal numbering; the copy
loop used for `drlo` and `drup` in the `SmiNodeData` constructor. -/
def rowFiltered (core : SmiCoreData) (stg : Nat) (v : List (Nat × Rat)) : List (Nat × Rat) :=
  (v.filter (fun e => decide (core.rowStage e.1 = stg))).map
    (fun e => (core.rowEx2In e.1, e.2))

/-- The matrix rows stored by a stage-`stg` node: for each of the stage's
`nRowInStage stg` internal row slots, the input matrix row at external
index `rowIn2Ex (stageRowPtr stg + i)`, with column indices translated to
internal numbering (the constructor copies raw rows and then converts all
copied indices via `getColInternalIndex`). -/
def matRowsOf (core : SmiCoreData) (stg : Nat) (m : List (List (Nat × Rat))) :
    List (List (Nat × Rat)) :=
  (List.range (core.nRowInStage stg)).map (fun i =>
    ((m.getD (core.rowIn2Ex (core.stageRowPtr stg + i)) []).map
      (fun e => (core.colEx2In e.1, e.2))))

/-- Whether a node constructed from `matrix` stores matrix data:
the source tests `matrix && matrix->getNumElements() > 0`. -/
def hasMat (matrix : Option (List (List (Nat × Rat)))) : Bool :=
  decide (0 < ((matrix.getD []).map List.length).sum)

/-- The matrix row segments a constructed node stores (none when the
matrix is absent or empty). -/
def constructMRows (stg : Nat) (core : SmiCoreData)
    (matrix : Option (List (List (Nat × Rat)))) : List (List (Nat × Rat)) :=
  if hasMat matrix then matRowsOf core stg (matrix.getD []) else []

/-- The six groups of segments a constructed node writes into its shared
buffer, in buffer order: matrix rows, then the five delta categories. -/
def constructSegs (stg : Nat) (core : SmiCoreData)
    (matrix : Option (List (List (Nat × Rat))))
    (dclo dcup dobj drlo drup : Option (List (Nat × Rat))) :
    List (List (Nat × Rat)) :=
  constructMRows stg core matrix ++
    [colFiltered core stg (dclo.getD []), colFiltered core stg (dcup.getD []),
     colFiltered core stg (dobj.getD []), rowFiltered core stg (drlo.getD []),
     rowFiltered core stg (drup.getD [])]

/-- The `SmiNodeData` constructor from LP data (`SmiNodeData::SmiNodeData`):
counts an upper bound `nels`, fills the shared buffer segment by segment
(matrix rows of the node's stage, then the five stage-filtered delta
categories), records the segment start offsets, and shrinks the buffer to
the entries actually copied.  When the matrix is absent or empty no row
starts are recorded and the category markers collapse to positions
`0..5` of `strt_`, exactly as in the source (`i_start` stays `0`). -/
def SmiNodeData.construct (stg : Nat) (core : SmiCoreData)
    (matrix : Option (List (List (Nat × Rat))))
    (dclo dcup dobj drlo drup : Option (List (Nat × Rat))) : SmiNodeData :=
  let nrow := core.nRowInStage stg
  let hasM : Bool := hasMat matrix
  let segs := constructSegs stg core matrix dclo dcup dobj drlo drup
  let base := if hasM then nrow else 0
  { stg := stg
    isCoreNode := false
    nrow := nrow
    ncol := core.nColInStage stg
    rowbeg := core.stageRowPtr stg
    colbeg := core.stageColPtr stg
    nels := ((matrix.getD []).map List.length).sum + (dclo.getD []).length
      + (dcup.getD []).length + (dobj.getD []).length
      + (drlo.getD []).length + (drup.getD []).length
    entries := segs.flatten
    strt := cumLens segs ++ List.replicate (if hasM then 0 else nrow) 0
    mat_strt := 0
    clo_strt := base
    cup_strt := base + 1
    obj_strt := base + 2
    rlo_strt := base + 3
    rup_strt := base + 4
    has_matrix := hasM }

/-- Dense per-stage array derived from a core node's sparse segment:
`CoinPackedVector(...).denseVector(len + beg) + beg`, i.e. scatter into a
zero buffer of size `beg + len` and keep the window starting at `beg`. -/
def denseFromSeg (beg len : Nat) (es : List (Nat × Rat)) : List Rat :=
  (scatter (List.replicate (beg + len) 0) es).drop beg

/-- The part of `gutsOfConstructor` that runs before any core node is
built: stage maps copied, per-stage counts and stage pointers computed,
and the placement loop run to produce the external/internal bijections.
The node list and the dense per-stage arrays are still empty; the core
nodes are constructed against exactly this state. -/
def SmiCoreData.mapsCore (nrow ncol nstag : Nat) (cstag rstag : List Nat) : SmiCoreData :=
  let colStage : Nat → Nat := fun c => cstag.getD c 0
  let rowStage : Nat → Nat := fun r => rstag.getD r 0
  let cSt := placeAll colStage ncol
  let rSt := placeAll rowStage nrow
  { nrow := nrow, ncol := ncol, nstag := nstag
    colStage := colStage, rowStage := rowStage
    nColInStage := cnt colStage ncol, nRowInStage := cnt rowStage nrow
    stageColPtr := basePtr colStage ncol, stageRowPtr := basePtr rowStage nrow
    colEx2In := cSt.ex2in, colIn2Ex := cSt.in2ex
    rowEx2In := rSt.ex2in, rowIn2Ex := rSt.in2ex
    cdclo := fun _ => [], cdcup := fun _ => [], cdobj := fun _ => []
    cdrlo := fun _ => [], cdrup := fun _ => [], nodes := [] }

/-- `SmiCoreData::gutsOfConstructor`: stores the stage maps, counts per
stage, computes the stage pointers, runs the placement loop producing the
external/internal bijections, builds one core `SmiNodeData` per stage
(marked as core node, matrix rows later sorted in place), and derives the
dense per-stage bound/objective arrays from each node's sparse segments. -/
def SmiCoreData.gutsOfConstructor (nrow ncol nstag : Nat) (cstag rstag : List Nat)
    (matrix : List (List (Nat × Rat)))
    (dclo dcup dobj drlo drup : List (Nat × Rat)) : SmiCoreData :=
  let core0 := SmiCoreData.mapsCore nrow ncol nstag cstag rstag
  let rawNodes := (List.range nstag).map (fun t =>
    (SmiNodeData.construct t core0 (some matrix)
      (some dclo) (some dcup) (some dobj) (some drlo) (some drup)).setCoreNode)
  let nodeAt : Nat -> SmiNodeData := fun t =>
    (SmiNodeData.construct t core0 (some matrix)
      (some dclo) (some dcup) (some dobj) (some drlo) (some drup)).setCoreNode
  { core0 with
    nodes := rawNodes.map SmiNodeData.sortRows
    cdclo := fun t => if t < nstag then
      denseFromSeg (core0.stageColPtr t) (core0.nColInStage t) (nodeAt t).cloSeg else []
    cdcup := fun t => if t < nstag then
      denseFromSeg (core0.stageColPtr t) (core0.nColInStage t) (nodeAt t).cupSeg else []
    cdobj := fun t => if t < nstag then
      denseFromSeg (core0.stageColPtr t) (core0.nColInStage t) (nodeAt t).objSeg else []
    cdrlo := fun t => if t < nstag then
      denseFromSeg (core0.stageRowPtr t) (core0.nRowInStage t) (nodeAt t).rloSeg else []
    cdrup := fun t => if t < nstag then
      denseFromSeg (core0.stageRowPtr t) (core0.nRowInStage t) (nodeAt t).rupSeg else [] }

/-- The full sparse copy of a dense array of length `n` made by the
`SmiCoreData` constructors: `CoinPackedVector(n, denseArray)` holds every
index `0..n-1` with its value (zeros included). -/
def fullVec (l : List Rat) (n : Nat) : List (Nat × Rat) :=
  (List.range n).map (fun i => (i, l.getD i 0))

/-- The public `SmiCoreData` constructor path (`SmiCoreData::SmiCoreData`):
reads the dense bounds/objective of the underlying problem into full
sparse vectors and delegates to `gutsOfConstructor`. -/
def SmiCoreData.coreFromDense (nrow ncol nstag : Nat) (cstag rstag : List Nat)
    (matrix : List (List (Nat × Rat)))
    (clo cup obj rlo rup : List Rat) : SmiCoreData :=
  SmiCoreData.gutsOfConstructor nrow ncol nstag cstag rstag matrix
    (fullVec clo ncol) (fullVec cup ncol) (fullVec obj ncol)
    (fullVec rlo nrow) (fullVec rup nrow)

/-- `SmiCoreData::copyColLower`: copy the first `getNumCols(t)` values of
the dense stage-`t` column lower bound array. -/
def SmiCoreData.copyColLower (core : SmiCoreData) (t : Nat) : List Rat :=
  (core.cdclo t).take (core.nColInStage t)

/-- `SmiCoreData::copyColUpper`. -/
def SmiCoreData.copyColUpper (core : SmiCoreData) (t : Nat) : List Rat :=
  (core.cdcup t).take (core.nColInStage t)

/-- `SmiCoreData::copyObjective`. -/
def SmiCoreData.copyObjective (core : SmiCoreData) (t : Nat) : List Rat :=
  (core.cdobj t).take (core.nColInStage t)

/-- `SmiCoreData::copyRowLower`. -/
def SmiCoreData.copyRowLower (core : SmiCoreData) (t : Nat) : List Rat :=
  (core.cdrlo t).take (core.nRowInStage t)

/-- `SmiCoreData::copyRowUpper`. -/
def SmiCoreData.copyRowUpper (core : SmiCoreData) (t : Nat) : List Rat :=
  (core.cdrup t).take (core.nRowInStage t)

/-- `SmiNodeData::combineWithCoreDoubleArray`: a no-op for a core node,
otherwise the combine rule overlays the sparse delta on the dense core
array (offset by the stage start). -/
def SmiNodeData.combineWithCoreDoubleArray (nd : SmiNodeData) (d : List Rat)
    (es : List (Nat × Rat)) (o : Nat) : List Rat :=
  if nd.isCoreNode then d else processDense d o es

/-- `SmiNodeData::combineWithCoreRow`: merge a sparse core row with the
node's sparse row through the combine rule. -/
def SmiNodeData.combineWithCoreRow (nd : SmiNodeData) (cr nr : List (Nat × Rat)) :
    List (Nat × Rat) :=
  processSparse cr nr

/-- `SmiNodeData::copyColLower`: core dense stage array overlaid with the
node's column-lower delta. -/
def SmiNodeData.copyColLower (core : SmiCoreData) (nd : SmiNodeData) : List Rat :=
  nd.combineWithCoreDoubleArray (core.copyColLower nd.stg) nd.cloSeg
    (core.stageColPtr nd.stg)

/-- `SmiNodeData::copyColUpper`. -/
def SmiNodeData.copyColUpper (core : SmiCoreData) (nd : SmiNodeData) : List Rat :=
  nd.combineWithCoreDoubleArray (core.copyColUpper nd.stg) nd.cupSeg
    (core.stageColPtr nd.stg)

/-- `SmiNodeData::copyObjective`. -/
def SmiNodeData.copyObjective (core : SmiCoreData) (nd : SmiNodeData) : List Rat :=
  nd.combineWithCoreDoubleArray (core.copyObjective nd.stg) nd.objSeg
    (core.stageColPtr nd.stg)

/-- `SmiNodeData::copyRowLower`. -/
def SmiNodeData.copyRowLower (core : SmiCoreData) (nd : SmiNodeData) : List Rat :=
  nd.combineWithCoreDoubleArray (core.copyRowLower nd.stg) nd.rloSeg
    (core.stageRowPtr nd.stg)

/-- `SmiNodeData::copyRowUpper`. -/
def SmiNodeData.copyRowUpper (core : SmiCoreData) (nd : SmiNodeData) : List Rat :=
  nd.combineWithCoreDoubleArray (core.copyRowUpper nd.stg) nd.rupSeg
    (core.stageRowPtr nd.stg)

/-- `CoinFillN(dv, n, v)` on a buffer modelled as a list: overwrite every
position with `v`. -/
def CoinFillN (l : List Rat) (v : Rat) : List Rat :=
  l.map (fun _ => v)

/-- `SmiNodeData::getDenseRow`: returns (and caches) a dense array of
length `core->getNumCols()`; the buffer is re-zeroed and the node's sparse
row entries re-scattered on every call. -/
def SmiNodeData.getDenseRow (core : SmiCoreData) (nd : SmiNodeData)
    (cache : Nat → Option (List Rat)) (i : Nat) :
    List Rat × (Nat → Option (List Rat)) :=
  let denseSize := core.ncol
  let dv0 := match cache i with
    | some dv => dv
    | none => List.replicate denseSize 0
  let dv := scatter (CoinFillN dv0 0) (nd.rowSeg i)
  (dv, upd cache i (some dv))

/-- Entries of quadratic column `j` in the triplet storage
(`indx[starts[j] .. starts[j+1])`). -/
def qColEntries (starts indx : List Nat) (j : Nat) : List Nat :=
  (indx.drop (starts.getD j 0)).take (starts.getD (j + 1) 0 - starts.getD j 0)

/-- Number of quadratic entries owned by columns of stage `stg`
(the `nqstarts` total computed in `SmiNodeData::addQuadraticObjective`). -/
def nqels (core : SmiCoreData) (stg : Nat) (starts : List Nat) : Nat :=
  ((List.range core.ncol).map (fun j =>
    if core.colStage j = stg then starts.getD (j + 1) 0 - starts.getD j 0 else 0)).sum

/-- `SmiNodeData::addQuadraticObjective`: returns early when the stage owns
no quadratic entries; otherwise scans the stage's columns in order and
throws on the first quadratic entry whose column lies in a different
stage (the copy into the node's deep-copy storage is not modelled; only
the control flow that decides success or failure is). -/
def SmiNodeData.addQuadraticObjective (core : SmiCoreData) (stg : Nat)
    (starts indx : List Nat) : Except String Unit :=
  if nqels core stg starts = 0 then Except.ok ()
  else
    match (List.range core.ncol).find? (fun j =>
        decide (core.colStage j = stg) &&
          (qColEntries starts indx j).any (fun c => !(decide (core.colStage c = stg)))) with
    | some _ => Except.error "Exception: Quadratic data for timestage includes data from timestage"
    | none => Except.ok ()

/-- Modelled from the spec: `SmiQuadraticData::hasData` (declared in the
header, not under `src/`) — true exactly when quadratic triplets are
present, i.e. the total entry count `starts[ncols]` is nonzero. -/
def qHasData (ncols : Nat) (starts : List Nat) : Bool :=
  !(starts.getD ncols 0 == 0)

/-- `SmiCoreData::addQuadraticObjectiveToCore`: skips (leaving the
`hasQdata` flag `false`) when no quadratic data is present; otherwise sets
`hasQdata` to `true` and pushes the data to every stage's core node in
order, propagating the first cross-stage exception.  The returned pair is
(outcome, value of the core's `hasQdata` flag after the call). -/
def SmiCoreData.addQuadraticObjectiveToCore (core : SmiCoreData)
    (starts indx : List Nat) : Except String Unit × Bool :=
  if qHasData core.ncol starts = false then (Except.ok (), false)
  else
    match (List.range core.nstag).findSome? (fun t =>
        match SmiNodeData.addQuadraticObjective core t starts indx with
        | Except.error s => some s
        | Except.ok _ => none) with
    | some s => (Except.error s, true)
    | none => (Except.ok (), true)

/-- Modelled from the spec: the invalid-argument validation the spec
requires of `SmiCoreData` construction — every supplied column and row
stage label lies in `[0, nstages)`.  (No such check exists in the source;
this predicate only states what the spec demands.) -/
def specStageLabelsValid (nstag : Nat) (ncol nrow : Nat) (cstag rstag : List Nat) : Bool :=
  ((List.range ncol).all (fun c => cstag.getD c 0 < nstag)) &&
    ((List.range nrow).all (fun r => rstag.getD r 0 < nstag))

/-- Concrete 2-column, 2-stage core of the spec's scenario example:
column 0 in stage 0, column 1 in stage 1, one matrix row in stage 1 with
coefficient `2` on column 1. -/
def exCore : SmiCoreData :=
  SmiCoreData.coreFromDense 1 2 2 [0, 1] [1] [[(1, 2)]] [5, 6] [7, 8] [1, 1] [0] [9]

/-- Scenario node for stage 1 of `exCore` carrying the matrix delta
coefficient `3` at (row 0, column 1). -/
def exScnMatNode : SmiNodeData :=
  SmiNodeData.construct 1 exCore (some [[(1, 3)]]) none none none none none

/-- Scenario node for stage 1 of `exCore` carrying the column-lower
override vector `V = [(1, 30)]`. -/
def exScnCloNode : SmiNodeData :=
  SmiNodeData.construct 1 exCore none (some [(1, 30)]) none none none none

/-- Core with interleaved stage labels (column 0 in stage 1, column 1 in
stage 0), used to exhibit an unsorted scenario-node matrix row. -/
def c7core : SmiCoreData :=
  SmiCoreData.coreFromDense 1 2 2 [1, 0] [0] [[(0, 5), (1, 7)]] [0, 0] [0, 0] [0, 0] [0] [0]

/-- Scenario node for stage 0 of `c7core` whose input matrix row has
ascending external column indices `0, 1`; after translation to internal
numbering the stored indices are `[1, 0]`. -/
def c7node : SmiNodeData :=
  SmiNodeData.construct 0 c7core (some [[(0, 5), (1, 7)]]) none none none none none

/-- The stage-0 core node of `c7core` as `gutsOfConstructor` builds it:
constructed, marked as core node, then row-sorted in place. -/
def c7coreNode0 : SmiNodeData :=
  ((SmiNodeData.construct 0 (SmiCoreData.mapsCore 1 2 2 [1, 0] [0])
    (some [[(0, 5), (1, 7)]]) (some (fullVec [0, 0] 2)) (some (fullVec [0, 0] 2))
    (some (fullVec [0, 0] 2)) (some (fullVec [0] 1))
    (some (fullVec [0] 1))).setCoreNode).sortRows

/-- One-row, one-column, one-stage core used for the matrix-less node
buffer layout example. -/
def c10core : SmiCoreData :=
  SmiCoreData.coreFromDense 1 1 1 [0] [0] [[]] [5] [9] [1] [0] [8]

/-- Node of `c10core` constructed without a matrix but with one
column-lower delta entry: its `strt_` array is `[0,1,1,1,1,1,0]`. -/
def c10node : SmiNodeData :=
  SmiNodeData.construct 0 c10core none (some [(0, 5)]) none none none none

/-! ### Lemmas: counting, stage pointers and the placement loop -/

theorem upd_self {α : Type} {g : Nat → α} {i : Nat} {v : α} : upd g i v i = v := by
  simp [upd]

theorem upd_ne {α : Type} {g : Nat → α} {i j : Nat} {v : α} (h : j ≠ i) :
    upd g i v j = g j := by
  simp [upd, h]

theorem cnt_zero (f : Nat → Nat) (s : Nat) : cnt f 0 s = 0 := rfl

theorem cnt_succ (f : Nat → Nat) (n s : Nat) :
    cnt f (n + 1) s = cnt f n s + (if f n = s then 1 else 0) := by
  unfold cnt
  rw [List.range_succ, List.filter_append, List.length_append]
  by_cases h : f n = s <;> simp [h]

theorem cnt_mono (f : Nat → Nat) (s : Nat) {m n : Nat} (h : m ≤ n) :
    cnt f m s ≤ cnt f n s := by
  induction n with
  | zero => simp [Nat.le_zero.mp h]
  | succ n ih =>
    rcases Nat.lt_or_ge m (n + 1) with h1 | h2
    · have := ih (Nat.lt_succ_iff.mp h1)
      rw [cnt_succ]
      omega
    · have hmn : m = n + 1 := Nat.le_antisymm h h2
      subst hmn
      exact le_refl _

theorem cnt_lt_total (f : Nat → Nat) {n i : Nat} (h : i < n) :
    cnt f i (f i) < cnt f n (f i) := by
  have h1 : cnt f (i + 1) (f i) = cnt f i (f i) + 1 := by
    rw [cnt_succ, if_pos rfl]
  have h2 : cnt f (i + 1) (f i) ≤ cnt f n (f i) := cnt_mono f _ h
  omega

theorem basePtr_succ (f : Nat → Nat) (n t : Nat) :
    basePtr f n (t + 1) = basePtr f n t + cnt f n t := by
  unfold basePtr
  rw [List.range_succ, List.map_append, List.sum_append]
  simp

theorem basePtr_mono (f : Nat → Nat) (n : Nat) {s t : Nat} (h : s ≤ t) :
    basePtr f n s ≤ basePtr f n t := by
  induction t with
  | zero => simp [Nat.le_zero.mp h]
  | succ t ih =>
    rcases Nat.lt_or_ge s (t + 1) with h1 | h2
    · have := ih (Nat.lt_succ_iff.mp h1)
      rw [basePtr_succ]
      omega
    · have hst : s = t + 1 := Nat.le_antisymm h h2
      subst hst
      exact le_refl _

theorem e2i_lt (f : Nat → Nat) {n c : Nat} (h : c < n) :
    e2i f n c < basePtr f n (f c + 1) := by
  rw [basePtr_succ]
  unfold e2i
  have := cnt_lt_total f h
  omega

theorem e2i_ge (f : Nat → Nat) (n c : Nat) : basePtr f n (f c) ≤ e2i f n c :=
  Nat.le_add_right _ _

theorem e2i_lt_of_lt_same (f : Nat → Nat) {n a b : Nat} (hab : a < b) (hf : f a = f b) :
    e2i f n a < e2i f n b := by
  unfold e2i
  rw [← hf]
  have h1 : cnt f (a + 1) (f a) = cnt f a (f a) + 1 := by rw [cnt_succ, if_pos rfl]
  have h2 : cnt f (a + 1) (f a) ≤ cnt f b (f a) := cnt_mono f _ hab
  omega

theorem e2i_lt_of_stage_lt (f : Nat → Nat) {n a b : Nat} (ha : a < n) (hf : f a < f b) :
    e2i f n a < e2i f n b := by
  have h1 : e2i f n a < basePtr f n (f a + 1) := e2i_lt f ha
  have h2 : basePtr f n (f a + 1) ≤ basePtr f n (f b) := basePtr_mono f n hf
  have h3 : basePtr f n (f b) ≤ e2i f n b := e2i_ge f n b
  omega

theorem e2i_inj (f : Nat → Nat) {n a b : Nat} (ha : a < n) (hb : b < n)
    (h : e2i f n a = e2i f n b) : a = b := by
  rcases Nat.lt_trichotomy (f a) (f b) with hf | hf | hf
  · exact absurd h (Nat.ne_of_lt (e2i_lt_of_stage_lt f ha hf))
  · rcases Nat.lt_trichotomy a b with h1 | h1 | h1
    · exact absurd h (Nat.ne_of_lt (e2i_lt_of_lt_same f h1 hf))
    · exact h1
    · exact absurd h.symm (Nat.ne_of_lt (e2i_lt_of_lt_same f h1 hf.symm))
  · exact absurd h.symm (Nat.ne_of_lt (e2i_lt_of_stage_lt f hb hf))

theorem e2i_surj (f : Nat → Nat) {n t k : Nat} (hk : k < cnt f n t) :
    ∃ c, c < n ∧ f c = t ∧ cnt f c t = k := by
  induction n with
  | zero => simp [cnt_zero] at hk
  | succ n ih =>
    by_cases hf : f n = t
    · rw [cnt_succ, if_pos hf] at hk
      rcases Nat.lt_or_ge k (cnt f n t) with h1 | h2
      · obtain ⟨c, hc, hfc, hcnt⟩ := ih h1
        exact ⟨c, Nat.lt_succ_of_lt hc, hfc, hcnt⟩
      · have hke : k = cnt f n t := by omega
        exact ⟨n, Nat.lt_succ_self n, hf, hke.symm⟩
    · rw [cnt_succ, if_neg hf] at hk
      obtain ⟨c, hc, hfc, hcnt⟩ := ih (by omega)
      exact ⟨c, Nat.lt_succ_of_lt hc, hfc, hcnt⟩

theorem loopTo_succ (f : Nat → Nat) (init : PlaceState) (k : Nat) :
    loopTo f init (k + 1) = placeStep f (loopTo f init k) k := by
  unfold loopTo
  rw [List.range_succ, List.foldl_append]
  rfl

theorem ptr_loopTo (f : Nat → Nat) (init : PlaceState) (k s : Nat) :
    (loopTo f init k).ptr s = init.ptr s + cnt f k s := by
  induction k with
  | zero => simp [loopTo, cnt_zero]
  | succ k ih =>
    rw [loopTo_succ]
    simp only [placeStep]
    by_cases h : s = f k
    · subst h
      rw [upd_self, ih, cnt_succ, if_pos rfl]
      omega
    · rw [upd_ne h, ih, cnt_succ, if_neg (fun hh => h hh.symm)]
      omega

theorem ex2in_loopTo (f : Nat → Nat) (init : PlaceState) {k c : Nat} (hc : c < k) :
    (loopTo f init k).ex2in c = init.ptr (f c) + cnt f c (f c) := by
  induction k with
  | zero => omega
  | succ k ih =>
    rw [loopTo_succ]
    simp only [placeStep]
    rcases Nat.lt_or_ge c k with h1 | h2
    · rw [upd_ne (Nat.ne_of_lt h1)]
      exact ih h1
    · have hck : c = k := by omega
      subst hck
      rw [upd_self, ptr_loopTo]

theorem in2ex_loopTo (f : Nat → Nat) (init : PlaceState) {k c : Nat} (hc : c < k)
    (hinj : ∀ j, c < j → j < k →
      init.ptr (f j) + cnt f j (f j) ≠ init.ptr (f c) + cnt f c (f c)) :
    (loopTo f init k).in2ex (init.ptr (f c) + cnt f c (f c)) = c := by
  induction k with
  | zero => omega
  | succ k ih =>
    rw [loopTo_succ]
    simp only [placeStep]
    rcases Nat.lt_or_ge c k with h1 | h2
    · rw [ptr_loopTo]
      rw [upd_ne (fun hh => hinj k h1 (Nat.lt_succ_self k) hh.symm)]
      exact ih h1 (fun j hj1 hj2 => hinj j hj1 (Nat.lt_succ_of_lt hj2))
    · have hck : c = k := by omega
      subst hck
      rw [ptr_loopTo, upd_self]

theorem placeAll_ex2in (f : Nat → Nat) {n c : Nat} (hc : c < n) :
    (placeAll f n).ex2in c = e2i f n c := by
  unfold placeAll e2i
  exact ex2in_loopTo f _ hc

theorem placeAll_in2ex (f : Nat → Nat) {n c : Nat} (hc : c < n) :
    (placeAll f n).in2ex (e2i f n c) = c := by
  unfold placeAll e2i
  refine in2ex_loopTo f _ hc (fun j hj1 hj2 heq => ?_)
  have : j = c := e2i_inj f hj2 hc heq
  omega

theorem placeAll_roundtrip (f : Nat → Nat) {n c : Nat} (hc : c < n) :
    (placeAll f n).in2ex ((placeAll f n).ex2in c) = c := by
  rw [placeAll_ex2in f hc]
  exact placeAll_in2ex f hc

theorem placeAll_stage_range (f : Nat → Nat) {n t i : Nat}
    (h1 : basePtr f n t ≤ i) (h2 : i < basePtr f n (t + 1)) :
    ∃ c, c < n ∧ f c = t ∧ e2i f n c = i ∧ (placeAll f n).in2ex i = c := by
  have hk : i - basePtr f n t < cnt f n t := by
    have := basePtr_succ f n t
    omega
  obtain ⟨c, hc, hfc, hcnt⟩ := e2i_surj f hk
  have he : e2i f n c = i := by
    unfold e2i
    rw [hfc, hcnt]
    omega
  refine ⟨c, hc, hfc, he, ?_⟩
  rw [← he]
  exact placeAll_in2ex f hc

/-! ### Lemmas: dense buffers, scatter and the combine rule -/

theorem getD_set_self {l : List Rat} {i : Nat} {v : Rat} (h : i < l.length) :
    (l.set i v).getD i 0 = v := by
  rw [List.getD_eq_getElem?_getD, List.getElem?_set_self h]
  rfl

theorem getD_set_ne {l : List Rat} {i j : Nat} {v : Rat} (h : i ≠ j) :
    (l.set i v).getD j 0 = l.getD j 0 := by
  rw [List.getD_eq_getElem?_getD, List.getElem?_set_ne h, ← List.getD_eq_getElem?_getD]

theorem getD_drop {α : Type} (l : List α) (d : α) (m k : Nat) :
    (l.drop m).getD k d = l.getD (m + k) d := by
  rw [List.getD_eq_getElem?_getD, List.getElem?_drop, ← List.getD_eq_getElem?_getD]

theorem scatter_cons (d : List Rat) (e : Nat × Rat) (es : List (Nat × Rat)) :
    scatter d (e :: es) = scatter (d.set e.1 e.2) es := rfl

theorem scatter_length (d : List Rat) (es : List (Nat × Rat)) :
    (scatter d es).length = d.length := by
  induction es generalizing d with
  | nil => rfl
  | cons e es ih => rw [scatter_cons, ih, List.length_set]

theorem scatter_getD_not_mem (d : List Rat) {es : List (Nat × Rat)} {j : Nat}
    (h : ∀ e ∈ es, e.1 ≠ j) :
    (scatter d es).getD j 0 = d.getD j 0 := by
  induction es generalizing d with
  | nil => rfl
  | cons e es ih =>
    rw [scatter_cons, ih _ (fun x hx => h x (List.mem_cons_of_mem e hx))]
    exact getD_set_ne (h e (List.mem_cons_self e es))

theorem scatter_getD_mem (d : List Rat) {es : List (Nat × Rat)} {j : Nat} {v : Rat}
    (hnd : (es.map Prod.fst).Nodup) (hm : (j, v) ∈ es) (hj : j < d.length) :
    (scatter d es).getD j 0 = v := by
  induction es generalizing d with
  | nil => simp at hm
  | cons e es ih =>
    rw [scatter_cons]
    rw [List.map_cons, List.nodup_cons] at hnd
    rcases List.mem_cons.mp hm with he | he
    · have h1 : e.1 = j := by rw [← he]
      have hnot : ∀ x ∈ es, x.1 ≠ j := by
        intro x hx hxj
        exact hnd.1 (h1 ▸ hxj ▸ List.mem_map_of_mem Prod.fst hx)
      rw [scatter_getD_not_mem _ hnot, ← h1, getD_set_self (by omega)]
      rw [← he]
    · exact ih _ hnd.2 he (by rwa [List.length_set])

theorem processDense_cons (d : List Rat) (o : Nat) (e : Nat × Rat) (es : List (Nat × Rat)) :
    processDense d o (e :: es) = processDense (d.set (e.1 - o) e.2) o es := rfl

theorem processDense_nil (d : List Rat) (o : Nat) : processDense d o [] = d := rfl

theorem processDense_eq_scatter (d : List Rat) (o : Nat) (es : List (Nat × Rat)) :
    processDense d o es = scatter d (es.map (fun e => (e.1 - o, e.2))) := by
  induction es generalizing d with
  | nil => rfl
  | cons e es ih => rw [processDense_cons, List.map_cons, scatter_cons, ih]

theorem processDense_length (d : List Rat) (o : Nat) (es : List (Nat × Rat)) :
    (processDense d o es).length = d.length := by
  rw [processDense_eq_scatter, scatter_length]

theorem processDense_getD_override (d : List Rat) (o : Nat) {es : List (Nat × Rat)}
    (hnd : ((es.map Prod.fst).map (fun x => x - o)).Nodup) {j : Nat} {v : Rat}
    (hm : (j, v) ∈ es.map (fun e => (e.1 - o, e.2))) (hj : j < d.length) :
    (processDense d o es).getD j 0 = v := by
  rw [processDense_eq_scatter]
  refine scatter_getD_mem d ?_ hm hj
  have : (es.map (fun e => (e.1 - o, e.2))).map Prod.fst
      = (es.map Prod.fst).map (fun x => x - o) := by
    rw [List.map_map, List.map_map]
    rfl
  rw [this]
  exact hnd

theorem processDense_getD_keep (d : List Rat) (o : Nat) {es : List (Nat × Rat)} {j : Nat}
    (h : ∀ e ∈ es, e.1 - o ≠ j) :
    (processDense d o es).getD j 0 = d.getD j 0 := by
  rw [processDense_eq_scatter]
  refine scatter_getD_not_mem d ?_
  intro e he
  obtain ⟨x, hx, hxe⟩ := List.mem_map.mp he
  rw [← hxe]
  exact h x hx

/-! ### Lemmas: the shared buffer layout (`cumLens`) -/

theorem cumLens_length {α : Type} (ls : List (List α)) :
    (cumLens ls).length = ls.length + 1 := by
  induction ls with
  | nil => rfl
  | cons l ls ih => simp [cumLens, ih]

theorem cumLens_getD_zero {α : Type} (ls : List (List α)) :
    (cumLens ls).getD 0 0 = 0 := by
  cases ls <;> rfl

theorem cumLens_getD {α : Type} (ls : List (List α)) {k : Nat} (hk : k ≤ ls.length) :
    (cumLens ls).getD k 0 = ((ls.take k).flatten).length := by
  induction ls generalizing k with
  | nil =>
    have hk0 : k = 0 := by simpa using hk
    subst hk0
    rfl
  | cons l ls ih =>
    cases k with
    | zero => rfl
    | succ k =>
      have hk' : k ≤ ls.length := by simpa using hk
      have hklt : k < ((cumLens ls).map (fun x => l.length + x)).length := by
        rw [List.length_map, cumLens_length]
        omega
      rw [show cumLens (l :: ls) = 0 :: (cumLens ls).map (fun x => l.length + x) from rfl]
      rw [List.getD_cons_succ, List.getD_eq_getElem _ _ hklt, List.getElem_map]
      rw [← List.getD_eq_getElem (cumLens ls) 0 (by rw [cumLens_length]; omega)]
      rw [ih hk', List.take_succ_cons, List.flatten_cons, List.length_append]

theorem seg_extract {α : Type} (ls : List (List α)) {k : Nat} (hk : k < ls.length) :
    (ls.flatten.drop ((cumLens ls).getD k 0)).take
      ((cumLens ls).getD (k + 1) 0 - (cumLens ls).getD k 0) = ls.getD k [] := by
  rw [cumLens_getD ls (le_of_lt hk), cumLens_getD ls hk]
  have hflat : ls.flatten = (ls.take k).flatten ++ (ls.drop k).flatten := by
    rw [← List.flatten_append, List.take_append_drop]
  have hdrop : ls.drop k = ls[k] :: ls.drop (k + 1) := List.drop_eq_getElem_cons hk
  have htake : ls.take (k + 1) = ls.take k ++ [ls[k]] := by
    rw [List.take_succ, List.getElem?_eq_getElem hk]
    rfl
  rw [hflat, List.drop_left, hdrop, List.flatten_cons, htake, List.flatten_append,
    List.length_append]
  rw [show ([ls[k]] : List (List α)).flatten.length = ls[k].length from by simp]
  rw [Nat.add_sub_cancel_left, List.take_left, List.getD_eq_getElem _ _ hk]

theorem getD_append_left {α : Type} {l1 l2 : List α} {k : Nat} (d : α) (h : k < l1.length) :
    (l1 ++ l2).getD k d = l1.getD k d := by
  rw [List.getD_eq_getElem?_getD, List.getElem?_append, if_pos h, ← List.getD_eq_getElem?_getD]

theorem getD_append_offset {α : Type} (l1 l2 : List α) (k : Nat) (d : α) :
    (l1 ++ l2).getD (l1.length + k) d = l2.getD k d := by
  rw [List.getD_eq_getElem?_getD, List.getElem?_append_right (Nat.le_add_right _ _),
    Nat.add_sub_cancel_left, ← List.getD_eq_getElem?_getD]

theorem chain_le_map_add {c : Nat} {ls : List Nat} (h : List.Chain' (· ≤ ·) ls) :
    List.Chain' (· ≤ ·) (ls.map (fun x => c + x)) := by
  rw [List.chain'_map]
  exact h.imp (fun a b hab => Nat.add_le_add_left hab c)

theorem cumLens_chain {α : Type} (ls : List (List α)) :
    List.Chain' (· ≤ ·) (cumLens ls) := by
  induction ls with
  | nil => simp [cumLens]
  | cons l ls ih =>
    show List.Chain' (· ≤ ·) (0 :: (cumLens ls).map (fun x => l.length + x))
    refine List.chain'_cons'.mpr ⟨?_, chain_le_map_add ih⟩
    intro y hy
    exact Nat.zero_le y

theorem cumLens_getD_last {α : Type} (ls : List (List α)) :
    (cumLens ls).getD ls.length 0 = ls.flatten.length := by
  rw [cumLens_getD ls (le_refl _), List.take_length]

theorem cumLens_getLast {α : Type} (ls : List (List α)) :
    (cumLens ls).getLast? = some ls.flatten.length := by
  rw [List.getLast?_eq_getElem?, cumLens_length, Nat.add_sub_cancel]
  rw [List.getElem?_eq_getElem (by rw [cumLens_length]; omega)]
  have h := cumLens_getD_last ls
  rw [List.getD_eq_getElem _ _ (by rw [cumLens_length]; omega)] at h
  rw [h]

theorem cumLens_eq_of_len {α β : Type} (ls : List (List α)) (ls2 : List (List β))
    (h : ls.map List.length = ls2.map List.length) : cumLens ls = cumLens ls2 := by
  induction ls generalizing ls2 with
  | nil =>
    cases ls2 with
    | nil => rfl
    | cons l2 ls2 => simp at h
  | cons l ls ih =>
    cases ls2 with
    | nil => simp at h
    | cons l2 ls2 =>
      simp only [List.map_cons, List.cons.injEq] at h
      show 0 :: (cumLens ls).map (fun x => l.length + x)
          = 0 :: (cumLens ls2).map (fun x => l2.length + x)
      rw [h.1, ih ls2 h.2]

/-! ### Lemmas: segments of a constructed node -/

theorem node_seg_of_parts (nd : SmiNodeData) (segs : List (List (Nat × Rat))) (pad : Nat)
    (hE : nd.entries = segs.flatten)
    (hS : nd.strt = cumLens segs ++ List.replicate pad 0)
    {k : Nat} (hk : k < segs.length) :
    nd.seg k = segs.getD k [] := by
  have h1 : nd.strt.getD k 0 = (cumLens segs).getD k 0 := by
    rw [hS]
    exact getD_append_left _ (by rw [cumLens_length]; omega)
  have h2 : nd.strt.getD (k + 1) 0 = (cumLens segs).getD (k + 1) 0 := by
    rw [hS]
    exact getD_append_left _ (by rw [cumLens_length]; omega)
  simp only [SmiNodeData.seg, SmiNodeData.getLength]
  rw [hE, h1, h2]
  exact seg_extract segs hk

theorem constructSegs_shape (stg : Nat) (core : SmiCoreData)
    (matrix : Option (List (List (Nat × Rat))))
    (dclo dcup dobj drlo drup : Option (List (Nat × Rat))) :
    constructSegs stg core matrix dclo dcup dobj drlo drup
      = constructMRows stg core matrix ++
        [colFiltered core stg (dclo.getD []), colFiltered core stg (dcup.getD []),
         colFiltered core stg (dobj.getD []), rowFiltered core stg (drlo.getD []),
         rowFiltered core stg (drup.getD [])] := rfl

theorem constructSegs_length (stg : Nat) (core : SmiCoreData)
    (matrix : Option (List (List (Nat × Rat))))
    (dclo dcup dobj drlo drup : Option (List (Nat × Rat))) :
    (constructSegs stg core matrix dclo dcup dobj drlo drup).length
      = (constructMRows stg core matrix).length + 5 := by
  rw [constructSegs_shape, List.length_append]
  rfl

theorem constructMRows_length (stg : Nat) (core : SmiCoreData)
    (matrix : Option (List (List (Nat × Rat)))) :
    (constructMRows stg core matrix).length
      = if hasMat matrix then core.nRowInStage stg else 0 := by
  unfold constructMRows
  by_cases h : hasMat matrix <;> simp [h, matRowsOf]

theorem construct_entries (stg : Nat) (core : SmiCoreData)
    (matrix : Option (List (List (Nat × Rat))))
    (dclo dcup dobj drlo drup : Option (List (Nat × Rat))) :
    (SmiNodeData.construct stg core matrix dclo dcup dobj drlo drup).entries
      = (constructSegs stg core matrix dclo dcup dobj drlo drup).flatten := rfl

theorem construct_strt (stg : Nat) (core : SmiCoreData)
    (matrix : Option (List (List (Nat × Rat))))
    (dclo dcup dobj drlo drup : Option (List (Nat × Rat))) :
    (SmiNodeData.construct stg core matrix dclo dcup dobj drlo drup).strt
      = cumLens (constructSegs stg core matrix dclo dcup dobj drlo drup)
        ++ List.replicate (if hasMat matrix then 0 else core.nRowInStage stg) 0 := rfl

theorem construct_clo_strt (stg : Nat) (core : SmiCoreData)
    (matrix : Option (List (List (Nat × Rat))))
    (dclo dcup dobj drlo drup : Option (List (Nat × Rat))) :
    (SmiNodeData.construct stg core matrix dclo dcup dobj drlo drup).clo_strt
      = (constructMRows stg core matrix).length := by
  rw [constructMRows_length]
  rfl

theorem construct_cup_strt (stg : Nat) (core : SmiCoreData)
    (matrix : Option (List (List (Nat × Rat))))
    (dclo dcup dobj drlo drup : Option (List (Nat × Rat))) :
    (SmiNodeData.construct stg core matrix dclo dcup dobj drlo drup).cup_strt
      = (constructMRows stg core matrix).length + 1 := by
  rw [constructMRows_length]
  rfl

theorem construct_obj_strt (stg : Nat) (core : SmiCoreData)
    (matrix : Option (List (List (Nat × Rat))))
    (dclo dcup dobj drlo drup : Option (List (Nat × Rat))) :
    (SmiNodeData.construct stg core matrix dclo dcup dobj drlo drup).obj_strt
      = (constructMRows stg core matrix).length + 2 := by
  rw [constructMRows_length]
  rfl

theorem construct_rlo_strt (stg : Nat) (core : SmiCoreData)
    (matrix : Option (List (List (Nat × Rat))))
    (dclo dcup dobj drlo drup : Option (List (Nat × Rat))) :
    (SmiNodeData.construct stg core matrix dclo dcup dobj drlo drup).rlo_strt
      = (constructMRows stg core matrix).length + 3 := by
  rw [constructMRows_length]
  rfl

theorem construct_rup_strt (stg : Nat) (core : SmiCoreData)
    (matrix : Option (List (List (Nat × Rat))))
    (dclo dcup dobj drlo drup : Option (List (Nat × Rat))) :
    (SmiNodeData.construct stg core matrix dclo dcup dobj drlo drup).rup_strt
      = (constructMRows stg core matrix).length + 4 := by
  rw [constructMRows_length]
  rfl

theorem construct_seg_cat (stg : Nat) (core : SmiCoreData)
    (matrix : Option (List (List (Nat × Rat))))
    (dclo dcup dobj drlo drup : Option (List (Nat × Rat))) (k : Nat) (hk : k < 5) :
    (SmiNodeData.construct stg core matrix dclo dcup dobj drlo drup).seg
        ((constructMRows stg core matrix).length + k)
      = ([colFiltered core stg (dclo.getD []), colFiltered core stg (dcup.getD []),
          colFiltered core stg (dobj.getD []), rowFiltered core stg (drlo.getD []),
          rowFiltered core stg (drup.getD [])]).getD k [] := by
  have hklt : (constructMRows stg core matrix).length + k
      < (constructSegs stg core matrix dclo dcup dobj drlo drup).length := by
    rw [constructSegs_length]
    omega
  rw [node_seg_of_parts _ _ _ (construct_entries stg core matrix dclo dcup dobj drlo drup)
    (construct_strt stg core matrix dclo dcup dobj drlo drup) hklt]
  rw [constructSegs_shape, getD_append_offset]

theorem construct_cloSeg (stg : Nat) (core : SmiCoreData)
    (matrix : Option (List (List (Nat × Rat))))
    (dclo dcup dobj drlo drup : Option (List (Nat × Rat))) :
    (SmiNodeData.construct stg core matrix dclo dcup dobj drlo drup).cloSeg
      = colFiltered core stg (dclo.getD []) := by
  unfold SmiNodeData.cloSeg
  rw [construct_clo_strt, ← Nat.add_zero (constructMRows stg core matrix).length]
  rw [construct_seg_cat stg core matrix dclo dcup dobj drlo drup 0 (by omega)]
  rfl

theorem construct_cupSeg (stg : Nat) (core : SmiCoreData)
    (matrix : Option (List (List (Nat × Rat))))
    (dclo dcup dobj drlo drup : Option (List (Nat × Rat))) :
    (SmiNodeData.construct stg core matrix dclo dcup dobj drlo drup).cupSeg
      = colFiltered core stg (dcup.getD []) := by
  unfold SmiNodeData.cupSeg
  rw [construct_cup_strt]
  rw [construct_seg_cat stg core matrix dclo dcup dobj drlo drup 1 (by omega)]
  rfl

theorem construct_objSeg (stg : Nat) (core : SmiCoreData)
    (matrix : Option (List (List (Nat × Rat))))
    (dclo dcup dobj drlo drup : Option (List (Nat × Rat))) :
    (SmiNodeData.construct stg core matrix dclo dcup dobj drlo drup).objSeg
      = colFiltered core stg (dobj.getD []) := by
  unfold SmiNodeData.objSeg
  rw [construct_obj_strt]
  rw [construct_seg_cat stg core matrix dclo dcup dobj drlo drup 2 (by omega)]
  rfl

theorem construct_rloSeg (stg : Nat) (core : SmiCoreData)
    (matrix : Option (List (List (Nat × Rat))))
    (dclo dcup dobj drlo drup : Option (List (Nat × Rat))) :
    (SmiNodeData.construct stg core matrix dclo dcup dobj drlo drup).rloSeg
      = rowFiltered core stg (drlo.getD []) := by
  unfold SmiNodeData.rloSeg
  rw [construct_rlo_strt]
  rw [construct_seg_cat stg core matrix dclo dcup dobj drlo drup 3 (by omega)]
  rfl

theorem construct_rupSeg (stg : Nat) (core : SmiCoreData)
    (matrix : Option (List (List (Nat × Rat))))
    (dclo dcup dobj drlo drup : Option (List (Nat × Rat))) :
    (SmiNodeData.construct stg core matrix dclo dcup dobj drlo drup).rupSeg
      = rowFiltered core stg (drup.getD []) := by
  unfold SmiNodeData.rupSeg
  rw [construct_rup_strt]
  rw [construct_seg_cat stg core matrix dclo dcup dobj drlo drup 4 (by omega)]
  rfl

theorem construct_rowSeg (stg : Nat) (core : SmiCoreData)
    (matrix : Option (List (List (Nat × Rat))))
    (dclo dcup dobj drlo drup : Option (List (Nat × Rat)))
    (hM : hasMat matrix = true) {i : Nat} (hi : i < core.nRowInStage stg) :
    (SmiNodeData.construct stg core matrix dclo dcup dobj drlo drup).rowSeg
        ((SmiNodeData.construct stg core matrix dclo dcup dobj drlo drup).rowbeg + i)
      = (constructMRows stg core matrix).getD i [] := by
  have hhm : (SmiNodeData.construct stg core matrix dclo dcup dobj drlo drup).has_matrix
      = true := hM
  have hMlen : (constructMRows stg core matrix).length = core.nRowInStage stg := by
    rw [constructMRows_length, hM]
    rfl
  unfold SmiNodeData.rowSeg
  rw [hhm, if_pos rfl]
  have hidx : (SmiNodeData.construct stg core matrix dclo dcup dobj drlo drup).mat_strt
      + ((SmiNodeData.construct stg core matrix dclo dcup dobj drlo drup).rowbeg + i
        - (SmiNodeData.construct stg core matrix dclo dcup dobj drlo drup).rowbeg) = i := by
    rw [show (SmiNodeData.construct stg core matrix dclo dcup dobj drlo drup).mat_strt = 0
      from rfl]
    omega
  rw [hidx]
  have hklt : i < (constructSegs stg core matrix dclo dcup dobj drlo drup).length := by
    rw [constructSegs_length]
    omega
  rw [node_seg_of_parts _ _ _ (construct_entries stg core matrix dclo dcup dobj drlo drup)
    (construct_strt stg core matrix dclo dcup dobj drlo drup) hklt]
  rw [constructSegs_shape, getD_append_left _ (by omega)]

theorem matRowsOf_getD (core : SmiCoreData) (stg : Nat) (m : List (List (Nat × Rat)))
    {i : Nat} (hi : i < core.nRowInStage stg) :
    (matRowsOf core stg m).getD i []
      = (m.getD (core.rowIn2Ex (core.stageRowPtr stg + i)) []).map
          (fun e => (core.colEx2In e.1, e.2)) := by
  unfold matRowsOf
  rw [List.getD_eq_getElem _ _ (by simpa using hi), List.getElem_map, List.getElem_range]

theorem setCoreNode_seg (nd : SmiNodeData) (k : Nat) : (nd.setCoreNode).seg k = nd.seg k := rfl

theorem setCoreNode_rowSeg (nd : SmiNodeData) (i : Nat) :
    (nd.setCoreNode).rowSeg i = nd.rowSeg i := rfl

theorem setCoreNode_cloSeg (nd : SmiNodeData) : (nd.setCoreNode).cloSeg = nd.cloSeg := rfl

theorem setCoreNode_cupSeg (nd : SmiNodeData) : (nd.setCoreNode).cupSeg = nd.cupSeg := rfl

theorem setCoreNode_objSeg (nd : SmiNodeData) : (nd.setCoreNode).objSeg = nd.objSeg := rfl

theorem setCoreNode_rloSeg (nd : SmiNodeData) : (nd.setCoreNode).rloSeg = nd.rloSeg := rfl

theorem setCoreNode_rupSeg (nd : SmiNodeData) : (nd.setCoreNode).rupSeg = nd.rupSeg := rfl

theorem sortRows_strt (nd : SmiNodeData) : nd.sortRows.strt = nd.strt := rfl

theorem sortRows_isCoreNode (nd : SmiNodeData) : nd.sortRows.isCoreNode = nd.isCoreNode := rfl

theorem sortPairs_length (es : List (Nat × Rat)) : (sortPairs es).length = es.length :=
  List.length_insertionSort _ es

theorem range_map_getD {α β : Type} (ls : List α) (g : α → β) (d : α) :
    (List.range ls.length).map (fun i => g (ls.getD i d)) = ls.map g := by
  apply List.ext_getElem
  · simp
  · intro n h1 h2
    simp only [List.getElem_map, List.getElem_range]
    rw [List.getD_eq_getElem _ _ (by simpa using h2)]

theorem construct_matOffset (stg : Nat) (core : SmiCoreData)
    (matrix : Option (List (List (Nat × Rat))))
    (dclo dcup dobj drlo drup : Option (List (Nat × Rat))) :
    (SmiNodeData.construct stg core matrix dclo dcup dobj drlo drup).strt.getD
        (SmiNodeData.construct stg core matrix dclo dcup dobj drlo drup).clo_strt 0
      = (constructMRows stg core matrix).flatten.length := by
  rw [construct_clo_strt, construct_strt]
  rw [getD_append_left _ (by rw [cumLens_length, constructSegs_length]; omega)]
  rw [cumLens_getD _ (by rw [constructSegs_length]; omega)]
  rw [constructSegs_shape, List.take_left]

theorem construct_core_sorted_entries (stg : Nat) (core : SmiCoreData)
    (matrix : Option (List (List (Nat × Rat))))
    (dclo dcup dobj drlo drup : Option (List (Nat × Rat))) :
    ((SmiNodeData.construct stg core matrix dclo dcup dobj drlo drup).setCoreNode.sortRows).entries
      = ((constructMRows stg core matrix).map sortPairs ++
         [colFiltered core stg (dclo.getD []), colFiltered core stg (dcup.getD []),
          colFiltered core stg (dobj.getD []), rowFiltered core stg (drlo.getD []),
          rowFiltered core stg (drup.getD [])]).flatten := by
  show ((List.range (SmiNodeData.construct stg core matrix dclo dcup dobj drlo drup).nrow).map
      (fun i => sortPairs ((SmiNodeData.construct stg core matrix dclo dcup dobj drlo
        drup).setCoreNode.rowSeg
        ((SmiNodeData.construct stg core matrix dclo dcup dobj drlo drup).rowbeg + i)))).flatten
      ++ (SmiNodeData.construct stg core matrix dclo dcup dobj drlo drup).entries.drop
        ((SmiNodeData.construct stg core matrix dclo dcup dobj drlo drup).strt.getD
          (SmiNodeData.construct stg core matrix dclo dcup dobj drlo drup).clo_strt 0)
      = _
  rw [List.flatten_append]
  have hdrop : (SmiNodeData.construct stg core matrix dclo dcup dobj drlo drup).entries.drop
      ((SmiNodeData.construct stg core matrix dclo dcup dobj drlo drup).strt.getD
        (SmiNodeData.construct stg core matrix dclo dcup dobj drlo drup).clo_strt 0)
      = ([colFiltered core stg (dclo.getD []), colFiltered core stg (dcup.getD []),
          colFiltered core stg (dobj.getD []), rowFiltered core stg (drlo.getD []),
          rowFiltered core stg (drup.getD [])] : List (List (Nat × Rat))).flatten := by
    rw [construct_matOffset, construct_entries, constructSegs_shape, List.flatten_append]
    rw [List.drop_left]
  rw [hdrop]
  congr 1
  by_cases h : hasMat matrix
  · have hMlen : (constructMRows stg core matrix).length = core.nRowInStage stg := by
      rw [constructMRows_length, h]
      rfl
    have hcongr : ∀ i ∈ List.range (SmiNodeData.construct stg core matrix dclo dcup dobj
        drlo drup).nrow,
        sortPairs ((SmiNodeData.construct stg core matrix dclo dcup dobj drlo
          drup).setCoreNode.rowSeg
          ((SmiNodeData.construct stg core matrix dclo dcup dobj drlo drup).rowbeg + i))
        = sortPairs ((constructMRows stg core matrix).getD i []) := by
      intro i hi
      rw [setCoreNode_rowSeg, construct_rowSeg stg core matrix dclo dcup dobj drlo drup h
        (List.mem_range.mp hi)]
    rw [List.map_congr_left hcongr]
    have h3 : List.range (SmiNodeData.construct stg core matrix dclo dcup dobj drlo
        drup).nrow = List.range (constructMRows stg core matrix).length := by
      rw [hMlen]
      rfl
    rw [h3, range_map_getD]
  · have hM0 : constructMRows stg core matrix = [] := by
      unfold constructMRows
      rw [if_neg (by simpa using h)]
    have hcongr : ∀ i ∈ List.range (SmiNodeData.construct stg core matrix dclo dcup dobj
        drlo drup).nrow,
        sortPairs ((SmiNodeData.construct stg core matrix dclo dcup dobj drlo
          drup).setCoreNode.rowSeg
          ((SmiNodeData.construct stg core matrix dclo dcup dobj drlo drup).rowbeg + i))
        = ([] : List (Nat × Rat)) := by
      intro i hi
      rw [setCoreNode_rowSeg]
      unfold SmiNodeData.rowSeg
      rw [show (SmiNodeData.construct stg core matrix dclo dcup dobj drlo drup).has_matrix
        = hasMat matrix from rfl]
      rw [if_neg (by simp [h])]
      rfl
    rw [List.map_congr_left hcongr, hM0]
    simp

theorem construct_core_sorted_strt (stg : Nat) (core : SmiCoreData)
    (matrix : Option (List (List (Nat × Rat))))
    (dclo dcup dobj drlo drup : Option (List (Nat × Rat))) :
    ((SmiNodeData.construct stg core matrix dclo dcup dobj drlo drup).setCoreNode.sortRows).strt
      = cumLens ((constructMRows stg core matrix).map sortPairs ++
         [colFiltered core stg (dclo.getD []), colFiltered core stg (dcup.getD []),
          colFiltered core stg (dobj.getD []), rowFiltered core stg (drlo.getD []),
          rowFiltered core stg (drup.getD [])])
        ++ List.replicate (if hasMat matrix then 0 else core.nRowInStage stg) 0 := by
  rw [sortRows_strt]
  show (SmiNodeData.construct stg core matrix dclo dcup dobj drlo drup).strt = _
  rw [construct_strt]
  congr 1
  apply cumLens_eq_of_len
  rw [constructSegs_shape, List.map_append, List.map_append]
  congr 1
  rw [List.map_map]
  apply List.map_congr_left
  intro x hx
  exact (sortPairs_length x).symm

theorem sorted_rowSeg (stg : Nat) (core : SmiCoreData)
    (matrix : Option (List (List (Nat × Rat))))
    (dclo dcup dobj drlo drup : Option (List (Nat × Rat)))
    (hM : hasMat matrix = true) {i : Nat} (hi : i < core.nRowInStage stg) :
    ((SmiNodeData.construct stg core matrix dclo dcup dobj drlo drup).setCoreNode.sortRows).rowSeg
        (((SmiNodeData.construct stg core matrix dclo dcup dobj drlo
          drup).setCoreNode.sortRows).rowbeg + i)
      = sortPairs ((constructMRows stg core matrix).getD i []) := by
  have hMlen : (constructMRows stg core matrix).length = core.nRowInStage stg := by
    rw [constructMRows_length, hM]
    rfl
  unfold SmiNodeData.rowSeg
  rw [show ((SmiNodeData.construct stg core matrix dclo dcup dobj drlo
    drup).setCoreNode.sortRows).has_matrix = hasMat matrix from rfl, hM, if_pos rfl]
  have hidx : ((SmiNodeData.construct stg core matrix dclo dcup dobj drlo
      drup).setCoreNode.sortRows).mat_strt
      + (((SmiNodeData.construct stg core matrix dclo dcup dobj drlo
        drup).setCoreNode.sortRows).rowbeg + i
        - ((SmiNodeData.construct stg core matrix dclo dcup dobj drlo
          drup).setCoreNode.sortRows).rowbeg) = i := by
    rw [show ((SmiNodeData.construct stg core matrix dclo dcup dobj drlo
      drup).setCoreNode.sortRows).mat_strt = 0 from rfl]
    omega
  rw [hidx]
  have hklt : i < ((constructMRows stg core matrix).map sortPairs ++
      [colFiltered core stg (dclo.getD []), colFiltered core stg (dcup.getD []),
       colFiltered core stg (dobj.getD []), rowFiltered core stg (drlo.getD []),
       rowFiltered core stg (drup.getD [])]).length := by
    rw [List.length_append, List.length_map]
    omega
  rw [node_seg_of_parts _ _ _
    (construct_core_sorted_entries stg core matrix dclo dcup dobj drlo drup)
    (construct_core_sorted_strt stg core matrix dclo dcup dobj drlo drup) hklt]
  rw [getD_append_left _ (by rw [List.length_map]; omega)]
  rw [List.getD_eq_getElem _ _ (by rw [List.length_map]; omega), List.getElem_map,
    ← List.getD_eq_getElem _ _ (by omega)]

/-! ### Lemmas: projections of the constructed core -/

theorem guts_nodes_get (nrow ncol nstag : Nat) (cstag rstag : List Nat)
    (matrix : List (List (Nat × Rat))) (dclo dcup dobj drlo drup : List (Nat × Rat))
    {t : Nat} (ht : t < nstag) :
    (SmiCoreData.gutsOfConstructor nrow ncol nstag cstag rstag matrix dclo dcup dobj drlo
      drup).nodes.get? t
      = some (((SmiNodeData.construct t (SmiCoreData.mapsCore nrow ncol nstag cstag rstag)
          (some matrix) (some dclo) (some dcup) (some dobj) (some drlo)
          (some drup)).setCoreNode).sortRows) := by
  show (((List.range nstag).map (fun t =>
      (SmiNodeData.construct t (SmiCoreData.mapsCore nrow ncol nstag cstag rstag)
        (some matrix) (some dclo) (some dcup) (some dobj) (some drlo)
        (some drup)).setCoreNode)).map SmiNodeData.sortRows).get? t = _
  rw [List.get?_eq_getElem?, List.getElem?_map, List.getElem?_map, List.getElem?_range ht]
  rfl

theorem guts_cdclo (nrow ncol nstag : Nat) (cstag rstag : List Nat)
    (matrix : List (List (Nat × Rat))) (dclo dcup dobj drlo drup : List (Nat × Rat))
    {t : Nat} (ht : t < nstag) :
    (SmiCoreData.gutsOfConstructor nrow ncol nstag cstag rstag matrix dclo dcup dobj drlo
      drup).cdclo t
      = denseFromSeg ((SmiCoreData.mapsCore nrow ncol nstag cstag rstag).stageColPtr t)
          ((SmiCoreData.mapsCore nrow ncol nstag cstag rstag).nColInStage t)
          ((SmiNodeData.construct t (SmiCoreData.mapsCore nrow ncol nstag cstag rstag)
            (some matrix) (some dclo) (some dcup) (some dobj) (some drlo)
            (some drup)).cloSeg) := by
  show (if t < nstag then
      denseFromSeg ((SmiCoreData.mapsCore nrow ncol nstag cstag rstag).stageColPtr t)
        ((SmiCoreData.mapsCore nrow ncol nstag cstag rstag).nColInStage t)
        (((SmiNodeData.construct t (SmiCoreData.mapsCore nrow ncol nstag cstag rstag)
          (some matrix) (some dclo) (some dcup) (some dobj) (some drlo)
          (some drup)).setCoreNode).cloSeg)
    else []) = _
  rw [if_pos ht, setCoreNode_cloSeg]

theorem guts_cdcup (nrow ncol nstag : Nat) (cstag rstag : List Nat)
    (matrix : List (List (Nat × Rat))) (dclo dcup dobj drlo drup : List (Nat × Rat))
    {t : Nat} (ht : t < nstag) :
    (SmiCoreData.gutsOfConstructor nrow ncol nstag cstag rstag matrix dclo dcup dobj drlo
      drup).cdcup t
      = denseFromSeg ((SmiCoreData.mapsCore nrow ncol nstag cstag rstag).stageColPtr t)
          ((SmiCoreData.mapsCore nrow ncol nstag cstag rstag).nColInStage t)
          ((SmiNodeData.construct t (SmiCoreData.mapsCore nrow ncol nstag cstag rstag)
            (some matrix) (some dclo) (some dcup) (some dobj) (some drlo)
            (some drup)).cupSeg) := by
  show (if t < nstag then
      denseFromSeg ((SmiCoreData.mapsCore nrow ncol nstag cstag rstag).stageColPtr t)
        ((SmiCoreData.mapsCore nrow ncol nstag cstag rstag).nColInStage t)
        (((SmiNodeData.construct t (SmiCoreData.mapsCore nrow ncol nstag cstag rstag)
          (some matrix) (some dclo) (some dcup) (some dobj) (some drlo)
          (some drup)).setCoreNode).cupSeg)
    else []) = _
  rw [if_pos ht, setCoreNode_cupSeg]

theorem guts_cdobj (nrow ncol nstag : Nat) (cstag rstag : List Nat)
    (matrix : List (List (Nat × Rat))) (dclo dcup dobj drlo drup : List (Nat × Rat))
    {t : Nat} (ht : t < nstag) :
    (SmiCoreData.gutsOfConstructor nrow ncol nstag cstag rstag matrix dclo dcup dobj drlo
      drup).cdobj t
      = denseFromSeg ((SmiCoreData.mapsCore nrow ncol nstag cstag rstag).stageColPtr t)
          ((SmiCoreData.mapsCore nrow ncol nstag cstag rstag).nColInStage t)
          ((SmiNodeData.construct t (SmiCoreData.mapsCore nrow ncol nstag cstag rstag)
            (some matrix) (some dclo) (some dcup) (some dobj) (some drlo)
            (some drup)).objSeg) := by
  show (if t < nstag then
      denseFromSeg ((SmiCoreData.mapsCore nrow ncol nstag cstag rstag).stageColPtr t)
        ((SmiCoreData.mapsCore nrow ncol nstag cstag rstag).nColInStage t)
        (((SmiNodeData.construct t (SmiCoreData.mapsCore nrow ncol nstag cstag rstag)
          (some matrix) (some dclo) (some dcup) (some dobj) (some drlo)
          (some drup)).setCoreNode).objSeg)
    else []) = _
  rw [if_pos ht, setCoreNode_objSeg]

theorem guts_cdrlo (nrow ncol nstag : Nat) (cstag rstag : List Nat)
    (matrix : List (List (Nat × Rat))) (dclo dcup dobj drlo drup : List (Nat × Rat))
    {t : Nat} (ht : t < nstag) :
    (SmiCoreData.gutsOfConstructor nrow ncol nstag cstag rstag matrix dclo dcup dobj drlo
      drup).cdrlo t
      = denseFromSeg ((SmiCoreData.mapsCore nrow ncol nstag cstag rstag).stageRowPtr t)
          ((SmiCoreData.mapsCore nrow ncol nstag cstag rstag).nRowInStage t)
          ((SmiNodeData.construct t (SmiCoreData.mapsCore nrow ncol nstag cstag rstag)
            (some matrix) (some dclo) (some dcup) (some dobj) (some drlo)
            (some drup)).rloSeg) := by
  show (if t < nstag then
      denseFromSeg ((SmiCoreData.mapsCore nrow ncol nstag cstag rstag).stageRowPtr t)
        ((SmiCoreData.mapsCore nrow ncol nstag cstag rstag).nRowInStage t)
        (((SmiNodeData.construct t (SmiCoreData.mapsCore nrow ncol nstag cstag rstag)
          (some matrix) (some dclo) (some dcup) (some dobj) (some drlo)
          (some drup)).setCoreNode).rloSeg)
    else []) = _
  rw [if_pos ht, setCoreNode_rloSeg]

theorem guts_cdrup (nrow ncol nstag : Nat) (cstag rstag : List Nat)
    (matrix : List (List (Nat × Rat))) (dclo dcup dobj drlo drup : List (Nat × Rat))
    {t : Nat} (ht : t < nstag) :
    (SmiCoreData.gutsOfConstructor nrow ncol nstag cstag rstag matrix dclo dcup dobj drlo
      drup).cdrup t
      = denseFromSeg ((SmiCoreData.mapsCore nrow ncol nstag cstag rstag).stageRowPtr t)
          ((SmiCoreData.mapsCore nrow ncol nstag cstag rstag).nRowInStage t)
          ((SmiNodeData.construct t (SmiCoreData.mapsCore nrow ncol nstag cstag rstag)
            (some matrix) (some dclo) (some dcup) (some dobj) (some drlo)
            (some drup)).rupSeg) := by
  show (if t < nstag then
      denseFromSeg ((SmiCoreData.mapsCore nrow ncol nstag cstag rstag).stageRowPtr t)
        ((SmiCoreData.mapsCore nrow ncol nstag cstag rstag).nRowInStage t)
        (((SmiNodeData.construct t (SmiCoreData.mapsCore nrow ncol nstag cstag rstag)
          (some matrix) (some dclo) (some dcup) (some dobj) (some drlo)
          (some drup)).setCoreNode).rupSeg)
    else []) = _
  rw [if_pos ht, setCoreNode_rupSeg]

/-! ### Lemmas: filtered sparse vectors and dense stage arrays -/

theorem colFiltered_fullVec (core : SmiCoreData) (t : Nat) (l : List Rat) (n : Nat) :
    colFiltered core t (fullVec l n)
      = ((List.range n).filter (fun c => decide (core.colStage c = t))).map
          (fun c => (core.colEx2In c, l.getD c 0)) := by
  unfold colFiltered fullVec
  rw [List.filter_map, List.map_map]
  rfl

theorem rowFiltered_fullVec (core : SmiCoreData) (t : Nat) (l : List Rat) (n : Nat) :
    rowFiltered core t (fullVec l n)
      = ((List.range n).filter (fun r => decide (core.rowStage r = t))).map
          (fun r => (core.rowEx2In r, l.getD r 0)) := by
  unfold rowFiltered fullVec
  rw [List.filter_map, List.map_map]
  rfl

theorem nodup_map_ex2in (f : Nat → Nat) (n t : Nat) :
    (((List.range n).filter (fun c => decide (f c = t))).map
      (fun c => (placeAll f n).ex2in c)).Nodup := by
  apply List.Nodup.map_on
  · intro x hx y hy hxy
    have hxn : x < n := List.mem_range.mp (List.mem_of_mem_filter hx)
    have hyn : y < n := List.mem_range.mp (List.mem_of_mem_filter hy)
    rw [placeAll_ex2in f hxn, placeAll_ex2in f hyn] at hxy
    exact e2i_inj f hxn hyn hxy
  · exact (List.nodup_range n).filter _

theorem denseFromSeg_length (beg len : Nat) (es : List (Nat × Rat)) :
    (denseFromSeg beg len es).length = len := by
  unfold denseFromSeg
  rw [List.length_drop, scatter_length, List.length_replicate]
  omega

theorem denseFromSeg_getD (beg len : Nat) (es : List (Nat × Rat)) (j : Nat) :
    (denseFromSeg beg len es).getD j 0
      = (scatter (List.replicate (beg + len) 0) es).getD (beg + j) 0 := by
  unfold denseFromSeg
  rw [getD_drop]

theorem denseFromSeg_filtered_read (f : Nat → Nat) (n t : Nat) (l : List Rat)
    {j : Nat} (hj : j < cnt f n t) :
    (denseFromSeg (basePtr f n t) (cnt f n t)
        (((List.range n).filter (fun c => decide (f c = t))).map
          (fun c => ((placeAll f n).ex2in c, l.getD c 0)))).getD j 0
      = l.getD ((placeAll f n).in2ex (basePtr f n t + j)) 0 := by
  obtain ⟨c, hc, hfc, he, hin⟩ := @placeAll_stage_range f n t (basePtr f n t + j)
    (Nat.le_add_right _ j) (by rw [basePtr_succ]; omega)
  rw [denseFromSeg_getD, hin]
  apply scatter_getD_mem
  · rw [List.map_map]
    show (((List.range n).filter (fun c => decide (f c = t))).map
      (fun c => (placeAll f n).ex2in c)).Nodup
    exact nodup_map_ex2in f n t
  · have hcf : c ∈ (List.range n).filter (fun c => decide (f c = t)) :=
      List.mem_filter.mpr ⟨List.mem_range.mpr hc, by simp [hfc]⟩
    have hmem : ((placeAll f n).ex2in c, l.getD c 0) ∈
        ((List.range n).filter (fun c => decide (f c = t))).map
          (fun c => ((placeAll f n).ex2in c, l.getD c 0)) :=
      List.mem_map_of_mem (fun c => ((placeAll f n).ex2in c, l.getD c 0)) hcf
    rw [placeAll_ex2in f hc] at hmem
    rw [he] at hmem
    exact hmem
  · rw [List.length_replicate]
    omega

/-! ### Claim C3 -/

/-- C3: after `SmiCoreData` construction the external/internal index maps
are mutually inverse (`colIn2Ex (colEx2In c) = c` for every valid external
column index, and likewise for rows), and they are stage-consistent: every
internal index in stage `t`'s column range `[stageColPtr t, stageColPtr
(t+1))` maps back to an external column whose stage is `t`, and likewise
for rows. -/
theorem C3_index_maps_inverse_and_stage_consistent (nrow ncol nstag : Nat)
    (cstag rstag : List Nat) (matrix : List (List (Nat × Rat)))
    (dclo dcup dobj drlo drup : List (Nat × Rat))
    (_hc : ∀ c, c < ncol → cstag.getD c 0 < nstag)
    (_hr : ∀ r, r < nrow → rstag.getD r 0 < nstag) :
    (∀ c, c < ncol →
      (SmiCoreData.gutsOfConstructor nrow ncol nstag cstag rstag matrix dclo dcup dobj
        drlo drup).colIn2Ex
        ((SmiCoreData.gutsOfConstructor nrow ncol nstag cstag rstag matrix dclo dcup dobj
          drlo drup).colEx2In c) = c) ∧
    (∀ t i,
      (SmiCoreData.gutsOfConstructor nrow ncol nstag cstag rstag matrix dclo dcup dobj
        drlo drup).stageColPtr t ≤ i →
      i < (SmiCoreData.gutsOfConstructor nrow ncol nstag cstag rstag matrix dclo dcup dobj
        drlo drup).stageColPtr (t + 1) →
      (SmiCoreData.gutsOfConstructor nrow ncol nstag cstag rstag matrix dclo dcup dobj
        drlo drup).colStage
        ((SmiCoreData.gutsOfConstructor nrow ncol nstag cstag rstag matrix dclo dcup dobj
          drlo drup).colIn2Ex i) = t) ∧
    (∀ r, r < nrow →
      (SmiCoreData.gutsOfConstructor nrow ncol nstag cstag rstag matrix dclo dcup dobj
        drlo drup).rowIn2Ex
        ((SmiCoreData.gutsOfConstructor nrow ncol nstag cstag rstag matrix dclo dcup dobj
          drlo drup).rowEx2In r) = r) ∧
    (∀ t i,
      (SmiCoreData.gutsOfConstructor nrow ncol nstag cstag rstag matrix dclo dcup dobj
        drlo drup).stageRowPtr t ≤ i →
      i < (SmiCoreData.gutsOfConstructor nrow ncol nstag cstag rstag matrix dclo dcup dobj
        drlo drup).stageRowPtr (t + 1) →
      (SmiCoreData.gutsOfConstructor nrow ncol nstag cstag rstag matrix dclo dcup dobj
        drlo drup).rowStage
        ((SmiCoreData.gutsOfConstructor nrow ncol nstag cstag rstag matrix dclo dcup dobj
          drlo drup).rowIn2Ex i) = t) := by
  refine ⟨fun c hc => placeAll_roundtrip _ hc, fun t i h1 h2 => ?_,
    fun r hr => placeAll_roundtrip _ hr, fun t i h1 h2 => ?_⟩
  · obtain ⟨c, hc, hfc, he, hin⟩ := placeAll_stage_range (fun c => cstag.getD c 0) h1 h2
    show cstag.getD ((placeAll (fun c => cstag.getD c 0) ncol).in2ex i) 0 = t
    rw [hin]
    exact hfc
  · obtain ⟨r, hr, hfr, he, hin⟩ := placeAll_stage_range (fun r => rstag.getD r 0) h1 h2
    show rstag.getD ((placeAll (fun r => rstag.getD r 0) nrow).in2ex i) 0 = t
    rw [hin]
    exact hfr

/-- Witness for C3 on the concrete example core: the composed maps are the
identity on both columns, and the internal index 1 (stage 1's column
range) maps back to a stage-1 external column. -/
theorem C3_witness :
    exCore.colIn2Ex (exCore.colEx2In 0) = 0 ∧ exCore.colIn2Ex (exCore.colEx2In 1) = 1 ∧
    exCore.colStage (exCore.colIn2Ex 1) = 1 ∧ exCore.rowIn2Ex (exCore.rowEx2In 0) = 0 ∧
    exCore.rowStage (exCore.rowIn2Ex 0) = 1 := by
  have h := C3_index_maps_inverse_and_stage_consistent 1 2 2 [0, 1] [1] [[(1, 2)]]
    (fullVec [5, 6] 2) (fullVec [7, 8] 2) (fullVec [1, 1] 2) (fullVec [0] 1)
    (fullVec [9] 1) (by decide) (by decide)
  exact ⟨h.1 0 (by decide), h.1 1 (by decide), h.2.1 1 1 (by decide) (by decide),
    h.2.2.1 0 (by decide), h.2.2.2 1 0 (by decide) (by decide)⟩

/-! ### Claim C4 -/

/-- C4: round-trip fidelity of the dense stage arrays.  For a core built
from dense bound vectors, `copyColLower(dest, t)` at stage-local position
`j` returns exactly the constructor's `colLower` value of the external
column `colIn2Ex (stageColPtr t + j)`: no entry is dropped or duplicated
when the stage's sparse core-node delta is scattered back into the dense
stage array. -/
theorem C4_dense_stage_roundtrip (nrow ncol nstag : Nat) (cstag rstag : List Nat)
    (matrix : List (List (Nat × Rat))) (clo cup obj rlo rup : List Rat)
    (_hc : ∀ c, c < ncol → cstag.getD c 0 < nstag)
    {t j : Nat} (ht : t < nstag)
    (hj : j < (SmiCoreData.coreFromDense nrow ncol nstag cstag rstag matrix clo cup obj
      rlo rup).nColInStage t) :
    (SmiCoreData.copyColLower
        (SmiCoreData.coreFromDense nrow ncol nstag cstag rstag matrix clo cup obj rlo rup)
        t).getD j 0
      = clo.getD
          ((SmiCoreData.coreFromDense nrow ncol nstag cstag rstag matrix clo cup obj rlo
            rup).colIn2Ex
            ((SmiCoreData.coreFromDense nrow ncol nstag cstag rstag matrix clo cup obj rlo
              rup).stageColPtr t + j)) 0 := by
  unfold SmiCoreData.copyColLower
  unfold SmiCoreData.coreFromDense at hj ⊢
  rw [guts_cdclo nrow ncol nstag cstag rstag matrix (fullVec clo ncol) (fullVec cup ncol)
    (fullVec obj ncol) (fullVec rlo nrow) (fullVec rup nrow) ht]
  rw [List.take_of_length_le (by rw [denseFromSeg_length]; exact le_refl _)]
  rw [construct_cloSeg]
  rw [show (some (fullVec clo ncol)).getD ([] : List (Nat × Rat)) = fullVec clo ncol
    from rfl]
  rw [colFiltered_fullVec]
  exact denseFromSeg_filtered_read (fun c => cstag.getD c 0) ncol t clo hj

/-- Witness for C4 on the example core: stage 1's only column is external
column 1, whose constructor lower bound 6 is reproduced. -/
theorem C4_witness :
    (SmiCoreData.copyColLower exCore 1).getD 0 0
        = [5, 6].getD (exCore.colIn2Ex (exCore.stageColPtr 1 + 0)) 0 ∧
      (SmiCoreData.copyColLower exCore 1).getD 0 0 = 6 :=
  ⟨C4_dense_stage_roundtrip 1 2 2 [0, 1] [1] [[(1, 2)]] [5, 6] [7, 8] [1, 1] [0] [9]
    (by decide) (by decide) (by decide), by decide⟩

/-! ### Claim C5 -/

theorem copyOps_core_identity (core : SmiCoreData) (nd : SmiNodeData)
    (h : nd.isCoreNode = true) :
    SmiNodeData.copyRowLower core nd = core.copyRowLower nd.stg ∧
    SmiNodeData.copyRowUpper core nd = core.copyRowUpper nd.stg ∧
    SmiNodeData.copyColLower core nd = core.copyColLower nd.stg ∧
    SmiNodeData.copyColUpper core nd = core.copyColUpper nd.stg ∧
    SmiNodeData.copyObjective core nd = core.copyObjective nd.stg := by
  refine ⟨?_, ?_, ?_, ?_, ?_⟩ <;>
    simp [SmiNodeData.copyRowLower, SmiNodeData.copyRowUpper, SmiNodeData.copyColLower,
      SmiNodeData.copyColUpper, SmiNodeData.copyObjective,
      SmiNodeData.combineWithCoreDoubleArray, h]

/-- C5: the combine step is the identity for trivial deltas.  Every core
node produced by `gutsOfConstructor` is marked `isCoreNode`, and each of
its five copy operations returns exactly the core's dense stage array;
and for any non-core node, each copy operation whose sparse delta segment
is empty likewise returns exactly the core's dense stage array. -/
theorem C5_trivial_delta_identity (nrow ncol nstag : Nat) (cstag rstag : List Nat)
    (matrix : List (List (Nat × Rat))) (dclo dcup dobj drlo drup : List (Nat × Rat)) :
    (∀ t nd, t < nstag →
      (SmiCoreData.gutsOfConstructor nrow ncol nstag cstag rstag matrix dclo dcup dobj
        drlo drup).nodes.get? t = some nd →
      nd.isCoreNode = true ∧
      SmiNodeData.copyRowLower (SmiCoreData.gutsOfConstructor nrow ncol nstag cstag rstag
          matrix dclo dcup dobj drlo drup) nd
        = SmiCoreData.copyRowLower (SmiCoreData.gutsOfConstructor nrow ncol nstag cstag
          rstag matrix dclo dcup dobj drlo drup) nd.stg ∧
      SmiNodeData.copyRowUpper (SmiCoreData.gutsOfConstructor nrow ncol nstag cstag rstag
          matrix dclo dcup dobj drlo drup) nd
        = SmiCoreData.copyRowUpper (SmiCoreData.gutsOfConstructor nrow ncol nstag cstag
          rstag matrix dclo dcup dobj drlo drup) nd.stg ∧
      SmiNodeData.copyColLower (SmiCoreData.gutsOfConstructor nrow ncol nstag cstag rstag
          matrix dclo dcup dobj drlo drup) nd
        = SmiCoreData.copyColLower (SmiCoreData.gutsOfConstructor nrow ncol nstag cstag
          rstag matrix dclo dcup dobj drlo drup) nd.stg ∧
      SmiNodeData.copyColUpper (SmiCoreData.gutsOfConstructor nrow ncol nstag cstag rstag
          matrix dclo dcup dobj drlo drup) nd
        = SmiCoreData.copyColUpper (SmiCoreData.gutsOfConstructor nrow ncol nstag cstag
          rstag matrix dclo dcup dobj drlo drup) nd.stg ∧
      SmiNodeData.copyObjective (SmiCoreData.gutsOfConstructor nrow ncol nstag cstag rstag
          matrix dclo dcup dobj drlo drup) nd
        = SmiCoreData.copyObjective (SmiCoreData.gutsOfConstructor nrow ncol nstag cstag
          rstag matrix dclo dcup dobj drlo drup) nd.stg) ∧
    (∀ (core : SmiCoreData) (nd : SmiNodeData), nd.isCoreNode = false →
      (nd.rloSeg = [] →
        SmiNodeData.copyRowLower core nd = core.copyRowLower nd.stg) ∧
      (nd.rupSeg = [] →
        SmiNodeData.copyRowUpper core nd = core.copyRowUpper nd.stg) ∧
      (nd.cloSeg = [] →
        SmiNodeData.copyColLower core nd = core.copyColLower nd.stg) ∧
      (nd.cupSeg = [] →
        SmiNodeData.copyColUpper core nd = core.copyColUpper nd.stg) ∧
      (nd.objSeg = [] →
        SmiNodeData.copyObjective core nd = core.copyObjective nd.stg)) := by
  constructor
  · intro t nd ht hget
    rw [guts_nodes_get nrow ncol nstag cstag rstag matrix dclo dcup dobj drlo drup ht]
      at hget
    injection hget with h
    subst h
    exact ⟨rfl, copyOps_core_identity _ _ rfl⟩
  · intro core nd hnc
    refine ⟨fun h => ?_, fun h => ?_, fun h => ?_, fun h => ?_, fun h => ?_⟩ <;>
      simp [SmiNodeData.copyRowLower, SmiNodeData.copyRowUpper, SmiNodeData.copyColLower,
        SmiNodeData.copyColUpper, SmiNodeData.copyObjective,
        SmiNodeData.combineWithCoreDoubleArray, hnc, h, processDense_nil]

/-- Witness for C5: the example core's stage-1 node is a core node whose
`copyColLower` is exactly the dense stage array `[6]`, and the
column-lower scenario node (whose column-upper delta is empty) copies the
upper bounds through unchanged as `[8]`. -/
theorem C5_witness :
    (exCore.nodes.get? 1).map (fun nd => nd.isCoreNode) = some true ∧
    (exCore.nodes.get? 1).map (fun nd => SmiNodeData.copyColLower exCore nd)
      = some (SmiCoreData.copyColLower exCore 1) ∧
    (exCore.nodes.get? 1).map (fun nd => SmiNodeData.copyColLower exCore nd) = some [6] ∧
    SmiNodeData.copyColUpper exCore exScnCloNode = SmiCoreData.copyColUpper exCore 1 ∧
    SmiNodeData.copyColUpper exCore exScnCloNode = [8] := by
  obtain ⟨nd, hnd⟩ : ∃ nd, exCore.nodes.get? 1 = some nd := ⟨_, rfl⟩
  have h := C5_trivial_delta_identity 1 2 2 [0, 1] [1] [[(1, 2)]] (fullVec [5, 6] 2)
    (fullVec [7, 8] 2) (fullVec [1, 1] 2) (fullVec [0] 1) (fullVec [9] 1)
  have h1 := h.1 1 nd (by decide) hnd
  have h2 := (h.2 exCore exScnCloNode (by decide)).2.2.2.1 (by decide)
  have hstg : nd.stg = 1 := by
    have hm : (exCore.nodes.get? 1).map (fun x => x.stg) = some 1 := by decide
    rw [hnd] at hm
    simpa using hm
  have hstg2 : exScnCloNode.stg = 1 := by decide
  refine ⟨?_, ?_, ?_, ?_, ?_⟩
  · rw [hnd]
    exact congrArg some h1.1
  · rw [hnd]
    exact congrArg some ((h1.2.2.2.1).trans
      (congrArg (SmiCoreData.copyColLower exCore) hstg))
  · rw [hnd]
    exact congrArg some (((h1.2.2.2.1).trans
      (congrArg (SmiCoreData.copyColLower exCore) hstg)).trans (by decide))
  · exact h2.trans (congrArg (SmiCoreData.copyColUpper exCore) hstg2)
  · exact (h2.trans (congrArg (SmiCoreData.copyColUpper exCore) hstg2)).trans (by decide)

/-! ### Claim C6 -/

theorem CoinFillN_zero (l : List Rat) : CoinFillN l 0 = List.replicate l.length 0 := by
  unfold CoinFillN
  induction l with
  | nil => rfl
  | cons a l ih => simp [List.replicate_succ, ih]

theorem getDenseRow_val (core : SmiCoreData) (nd : SmiNodeData)
    (cache : Nat → Option (List Rat)) (i : Nat)
    (hcache : ∀ dv, cache i = some dv → dv.length = core.ncol) :
    (SmiNodeData.getDenseRow core nd cache i).1
      = scatter (List.replicate core.ncol 0) (nd.rowSeg i) := by
  unfold SmiNodeData.getDenseRow
  cases hc : cache i with
  | none => simp [hc, CoinFillN_zero]
  | some dv =>
    simp only [hc]
    rw [CoinFillN_zero, hcache dv hc]

theorem replicate_getD_zero (n k : Nat) : (List.replicate n (0 : Rat)).getD k 0 = 0 := by
  rcases Nat.lt_or_ge k n with h | h
  · rw [List.getD_eq_getElem _ _ (by simpa using h), List.getElem_replicate]
  · rw [List.getD_eq_default _ _ (by simpa using h)]

/-- C6: `getDenseRow(i)` returns a dense array of length
`core->getNumCols()` in which the node's sparse entries for row `i` sit at
their internal column indices and every other position is zero; and a
second call on the unmodified node (through the cache returned by the
first call) returns the identical array. -/
theorem C6_getDenseRow_dense_and_stable (core : SmiCoreData) (nd : SmiNodeData)
    (cache : Nat → Option (List Rat)) (i : Nat)
    (hcache : ∀ dv, cache i = some dv → dv.length = core.ncol)
    (hnd : ((nd.rowSeg i).map Prod.fst).Nodup)
    (hbd : ∀ e ∈ nd.rowSeg i, e.1 < core.ncol) :
    (SmiNodeData.getDenseRow core nd cache i).1.length = core.ncol ∧
    (∀ k v, (k, v) ∈ nd.rowSeg i →
      (SmiNodeData.getDenseRow core nd cache i).1.getD k 0 = v) ∧
    (∀ k, (∀ e ∈ nd.rowSeg i, e.1 ≠ k) →
      (SmiNodeData.getDenseRow core nd cache i).1.getD k 0 = 0) ∧
    (SmiNodeData.getDenseRow core nd
        (SmiNodeData.getDenseRow core nd cache i).2 i).1
      = (SmiNodeData.getDenseRow core nd cache i).1 := by
  have hval := getDenseRow_val core nd cache i hcache
  have hlen : (SmiNodeData.getDenseRow core nd cache i).1.length = core.ncol := by
    rw [hval, scatter_length, List.length_replicate]
  refine ⟨hlen, ?_, ?_, ?_⟩
  · intro k v hm
    rw [hval]
    exact scatter_getD_mem _ hnd hm (by rw [List.length_replicate]; exact hbd _ hm)
  · intro k hk
    rw [hval, scatter_getD_not_mem _ hk, replicate_getD_zero]
  · have hsnd : (SmiNodeData.getDenseRow core nd cache i).2
        = upd cache i (some (SmiNodeData.getDenseRow core nd cache i).1) := by
      unfold SmiNodeData.getDenseRow
      rfl
    have hcache2 : ∀ dv, (SmiNodeData.getDenseRow core nd cache i).2 i = some dv →
        dv.length = core.ncol := by
      intro dv hdv
      rw [hsnd, upd_self] at hdv
      injection hdv with hdv2
      rw [← hdv2]
      exact hlen
    rw [getDenseRow_val core nd _ i hcache2, hval]

/-- Witness for C6: the dense row of the scenario matrix node of the
example core is `[0, 3]` (entry 3 at internal column 1, zero elsewhere),
and a second call through the returned cache gives the identical array. -/
theorem C6_witness :
    (SmiNodeData.getDenseRow exCore exScnMatNode (fun _ => none) 0).1.length = 2 ∧
    (SmiNodeData.getDenseRow exCore exScnMatNode (fun _ => none) 0).1.getD 1 0 = 3 ∧
    (SmiNodeData.getDenseRow exCore exScnMatNode (fun _ => none) 0).1.getD 0 0 = 0 ∧
    (SmiNodeData.getDenseRow exCore exScnMatNode
        (SmiNodeData.getDenseRow exCore exScnMatNode (fun _ => none) 0).2 0).1
      = (SmiNodeData.getDenseRow exCore exScnMatNode (fun _ => none) 0).1 := by
  have h := C6_getDenseRow_dense_and_stable exCore exScnMatNode (fun _ => none) 0
    (fun dv hdv => Option.noConfusion hdv) (by decide) (by decide)
  exact ⟨h.1, h.2.1 1 3 (by decide), h.2.2.1 0 (by decide), h.2.2.2⟩

/-! ### Claim C2 -/

/-- C2: `SmiNodeData` construction filters exactly by stage.  For a node
built against a constructed core, each of the five stored delta segments
is exactly the stage-`stg` subset of the corresponding input vector with
indices translated to internal numbering (`colFiltered` / `rowFiltered`
are literally that filter-and-translate); the stored matrix rows are
exactly the input rows whose row stage equals `stg` (soundness: slot `i`
holds input row `rowIn2Ex (stageRowPtr stg + i)`, whose stage is `stg`;
completeness: every input row of stage `stg` appears in its slot). -/
theorem C2_nodedelta_stage_filter (nrow ncol nstag : Nat) (cstag rstag : List Nat)
    (gmatrix : List (List (Nat × Rat))) (gdclo gdcup gdobj gdrlo gdrup : List (Nat × Rat))
    (stg : Nat) (m : List (List (Nat × Rat)))
    (Vclo Vcup Vobj Vrlo Vrup : List (Nat × Rat))
    (_hc : ∀ c, c < ncol → cstag.getD c 0 < nstag)
    (_hr : ∀ r, r < nrow → rstag.getD r 0 < nstag) :
    (SmiNodeData.construct stg
        (SmiCoreData.gutsOfConstructor nrow ncol nstag cstag rstag gmatrix gdclo gdcup
          gdobj gdrlo gdrup) (some m) (some Vclo) (some Vcup) (some Vobj) (some Vrlo)
        (some Vrup)).cloSeg
      = colFiltered (SmiCoreData.gutsOfConstructor nrow ncol nstag cstag rstag gmatrix
          gdclo gdcup gdobj gdrlo gdrup) stg Vclo ∧
    (SmiNodeData.construct stg
        (SmiCoreData.gutsOfConstructor nrow ncol nstag cstag rstag gmatrix gdclo gdcup
          gdobj gdrlo gdrup) (some m) (some Vclo) (some Vcup) (some Vobj) (some Vrlo)
        (some Vrup)).cupSeg
      = colFiltered (SmiCoreData.gutsOfConstructor nrow ncol nstag cstag rstag gmatrix
          gdclo gdcup gdobj gdrlo gdrup) stg Vcup ∧
    (SmiNodeData.construct stg
        (SmiCoreData.gutsOfConstructor nrow ncol nstag cstag rstag gmatrix gdclo gdcup
          gdobj gdrlo gdrup) (some m) (some Vclo) (some Vcup) (some Vobj) (some Vrlo)
        (some Vrup)).objSeg
      = colFiltered (SmiCoreData.gutsOfConstructor nrow ncol nstag cstag rstag gmatrix
          gdclo gdcup gdobj gdrlo gdrup) stg Vobj ∧
    (SmiNodeData.construct stg
        (SmiCoreData.gutsOfConstructor nrow ncol nstag cstag rstag gmatrix gdclo gdcup
          gdobj gdrlo gdrup) (some m) (some Vclo) (some Vcup) (some Vobj) (some Vrlo)
        (some Vrup)).rloSeg
      = rowFiltered (SmiCoreData.gutsOfConstructor nrow ncol nstag cstag rstag gmatrix
          gdclo gdcup gdobj gdrlo gdrup) stg Vrlo ∧
    (SmiNodeData.construct stg
        (SmiCoreData.gutsOfConstructor nrow ncol nstag cstag rstag gmatrix gdclo gdcup
          gdobj gdrlo gdrup) (some m) (some Vclo) (some Vcup) (some Vobj) (some Vrlo)
        (some Vrup)).rupSeg
      = rowFiltered (SmiCoreData.gutsOfConstructor nrow ncol nstag cstag rstag gmatrix
          gdclo gdcup gdobj gdrlo gdrup) stg Vrup ∧
    (hasMat (some m) = true → ∀ i,
      i < (SmiNodeData.construct stg
        (SmiCoreData.gutsOfConstructor nrow ncol nstag cstag rstag gmatrix gdclo gdcup
          gdobj gdrlo gdrup) (some m) (some Vclo) (some Vcup) (some Vobj) (some Vrlo)
        (some Vrup)).nrow →
      (SmiNodeData.construct stg
          (SmiCoreData.gutsOfConstructor nrow ncol nstag cstag rstag gmatrix gdclo gdcup
            gdobj gdrlo gdrup) (some m) (some Vclo) (some Vcup) (some Vobj) (some Vrlo)
          (some Vrup)).rowSeg
          ((SmiNodeData.construct stg
            (SmiCoreData.gutsOfConstructor nrow ncol nstag cstag rstag gmatrix gdclo gdcup
              gdobj gdrlo gdrup) (some m) (some Vclo) (some Vcup) (some Vobj) (some Vrlo)
            (some Vrup)).rowbeg + i)
        = (m.getD ((SmiCoreData.gutsOfConstructor nrow ncol nstag cstag rstag gmatrix
            gdclo gdcup gdobj gdrlo gdrup).rowIn2Ex
            ((SmiCoreData.gutsOfConstructor nrow ncol nstag cstag rstag gmatrix gdclo
              gdcup gdobj gdrlo gdrup).stageRowPtr stg + i)) []).map
            (fun e => ((SmiCoreData.gutsOfConstructor nrow ncol nstag cstag rstag gmatrix
              gdclo gdcup gdobj gdrlo gdrup).colEx2In e.1, e.2)) ∧
      (SmiCoreData.gutsOfConstructor nrow ncol nstag cstag rstag gmatrix gdclo gdcup gdobj
          gdrlo gdrup).rowStage
          ((SmiCoreData.gutsOfConstructor nrow ncol nstag cstag rstag gmatrix gdclo gdcup
            gdobj gdrlo gdrup).rowIn2Ex
            ((SmiCoreData.gutsOfConstructor nrow ncol nstag cstag rstag gmatrix gdclo
              gdcup gdobj gdrlo gdrup).stageRowPtr stg + i)) = stg) ∧
    (hasMat (some m) = true → ∀ r, r < nrow →
      (SmiCoreData.gutsOfConstructor nrow ncol nstag cstag rstag gmatrix gdclo gdcup gdobj
        gdrlo gdrup).rowStage r = stg →
      (SmiCoreData.gutsOfConstructor nrow ncol nstag cstag rstag gmatrix gdclo gdcup gdobj
          gdrlo gdrup).stageRowPtr stg ≤
        (SmiCoreData.gutsOfConstructor nrow ncol nstag cstag rstag gmatrix gdclo gdcup
          gdobj gdrlo gdrup).rowEx2In r ∧
      (SmiCoreData.gutsOfConstructor nrow ncol nstag cstag rstag gmatrix gdclo gdcup gdobj
          gdrlo gdrup).rowEx2In r <
        (SmiCoreData.gutsOfConstructor nrow ncol nstag cstag rstag gmatrix gdclo gdcup
          gdobj gdrlo gdrup).stageRowPtr stg +
        (SmiNodeData.construct stg
          (SmiCoreData.gutsOfConstructor nrow ncol nstag cstag rstag gmatrix gdclo gdcup
            gdobj gdrlo gdrup) (some m) (some Vclo) (some Vcup) (some Vobj) (some Vrlo)
          (some Vrup)).nrow ∧
      (SmiNodeData.construct stg
          (SmiCoreData.gutsOfConstructor nrow ncol nstag cstag rstag gmatrix gdclo gdcup
            gdobj gdrlo gdrup) (some m) (some Vclo) (some Vcup) (some Vobj) (some Vrlo)
          (some Vrup)).rowSeg
          ((SmiCoreData.gutsOfConstructor nrow ncol nstag cstag rstag gmatrix gdclo gdcup
            gdobj gdrlo gdrup).rowEx2In r)
        = (m.getD r []).map
            (fun e => ((SmiCoreData.gutsOfConstructor nrow ncol nstag cstag rstag gmatrix
              gdclo gdcup gdobj gdrlo gdrup).colEx2In e.1, e.2))) := by
  refine ⟨construct_cloSeg _ _ _ _ _ _ _ _, construct_cupSeg _ _ _ _ _ _ _ _,
    construct_objSeg _ _ _ _ _ _ _ _, construct_rloSeg _ _ _ _ _ _ _ _,
    construct_rupSeg _ _ _ _ _ _ _ _, ?_, ?_⟩
  · intro hM i hi
    have hi2 : i < cnt (fun r => rstag.getD r 0) nrow stg := hi
    constructor
    · rw [construct_rowSeg _ _ _ _ _ _ _ _ hM hi]
      rw [show constructMRows stg
          (SmiCoreData.gutsOfConstructor nrow ncol nstag cstag rstag gmatrix gdclo gdcup
            gdobj gdrlo gdrup) (some m)
          = matRowsOf (SmiCoreData.gutsOfConstructor nrow ncol nstag cstag rstag gmatrix
            gdclo gdcup gdobj gdrlo gdrup) stg m from by
        unfold constructMRows
        rw [hM]
        rfl]
      rw [matRowsOf_getD _ stg m hi]
    · obtain ⟨c, hc, hfc, he, hin⟩ := @placeAll_stage_range (fun r => rstag.getD r 0) nrow
        stg (basePtr (fun r => rstag.getD r 0) nrow stg + i) (Nat.le_add_right _ _)
        (by rw [basePtr_succ]; omega)
      show rstag.getD ((placeAll (fun r => rstag.getD r 0) nrow).in2ex
        (basePtr (fun r => rstag.getD r 0) nrow stg + i)) 0 = stg
      rw [hin]
      exact hfc
  · intro hM r hr hst
    have hst2 : rstag.getD r 0 = stg := hst
    have hex : (SmiCoreData.gutsOfConstructor nrow ncol nstag cstag rstag gmatrix gdclo
        gdcup gdobj gdrlo gdrup).rowEx2In r = e2i (fun r => rstag.getD r 0) nrow r :=
      placeAll_ex2in _ hr
    have hge : basePtr (fun r => rstag.getD r 0) nrow stg
        ≤ e2i (fun r => rstag.getD r 0) nrow r := by
      have h0 := e2i_ge (fun r => rstag.getD r 0) nrow r
      rw [hst2] at h0
      exact h0
    have hlt : e2i (fun r => rstag.getD r 0) nrow r
        < basePtr (fun r => rstag.getD r 0) nrow stg
          + cnt (fun r => rstag.getD r 0) nrow stg := by
      have h0 := e2i_lt (fun r => rstag.getD r 0) hr
      simp only [] at h0
      rw [hst2, basePtr_succ] at h0
      exact h0
    refine ⟨by rw [hex]; exact hge, by rw [hex]; exact hlt, ?_⟩
    have hi0 : e2i (fun r => rstag.getD r 0) nrow r
        - basePtr (fun r => rstag.getD r 0) nrow stg
        < cnt (fun r => rstag.getD r 0) nrow stg := by
      omega
    have heq : (SmiCoreData.gutsOfConstructor nrow ncol nstag cstag rstag gmatrix gdclo
        gdcup gdobj gdrlo gdrup).rowEx2In r
        = (SmiNodeData.construct stg
          (SmiCoreData.gutsOfConstructor nrow ncol nstag cstag rstag gmatrix gdclo gdcup
            gdobj gdrlo gdrup) (some m) (some Vclo) (some Vcup) (some Vobj) (some Vrlo)
          (some Vrup)).rowbeg
          + (e2i (fun r => rstag.getD r 0) nrow r
            - basePtr (fun r => rstag.getD r 0) nrow stg) := by
      rw [hex]
      show e2i (fun r => rstag.getD r 0) nrow r
        = basePtr (fun r => rstag.getD r 0) nrow stg + _
      omega
    rw [heq, construct_rowSeg _ _ _ _ _ _ _ _ hM hi0]
    rw [show constructMRows stg
        (SmiCoreData.gutsOfConstructor nrow ncol nstag cstag rstag gmatrix gdclo gdcup
          gdobj gdrlo gdrup) (some m)
        = matRowsOf (SmiCoreData.gutsOfConstructor nrow ncol nstag cstag rstag gmatrix
          gdclo gdcup gdobj gdrlo gdrup) stg m from by
      unfold constructMRows
      rw [hM]
      rfl]
    rw [matRowsOf_getD _ stg m hi0]
    have hback : (SmiCoreData.gutsOfConstructor nrow ncol nstag cstag rstag gmatrix gdclo
        gdcup gdobj gdrlo gdrup).rowIn2Ex
        ((SmiCoreData.gutsOfConstructor nrow ncol nstag cstag rstag gmatrix gdclo gdcup
          gdobj gdrlo gdrup).stageRowPtr stg
          + (e2i (fun r => rstag.getD r 0) nrow r
            - basePtr (fun r => rstag.getD r 0) nrow stg)) = r := by
      show (placeAll (fun r => rstag.getD r 0) nrow).in2ex
        (basePtr (fun r => rstag.getD r 0) nrow stg
          + (e2i (fun r => rstag.getD r 0) nrow r
            - basePtr (fun r => rstag.getD r 0) nrow stg)) = r
      rw [show basePtr (fun r => rstag.getD r 0) nrow stg
          + (e2i (fun r => rstag.getD r 0) nrow r
            - basePtr (fun r => rstag.getD r 0) nrow stg)
          = e2i (fun r => rstag.getD r 0) nrow r from by omega]
      exact placeAll_in2ex _ hr
    rw [hback]

/-- Witness for C2: a stage-1 scenario node of the example core stores
exactly the stage-1 column-lower override (translated to internal index 1)
and exactly the stage-1 matrix row, whose owning row stage is 1. -/
theorem C2_witness :
    (SmiNodeData.construct 1 exCore (some [[(1, 3)]]) (some [(1, 30)]) (some [])
        (some []) (some []) (some [])).cloSeg = [(1, 30)] ∧
    (SmiNodeData.construct 1 exCore (some [[(1, 3)]]) (some [(1, 30)]) (some [])
        (some []) (some []) (some [])).rowSeg
        ((SmiNodeData.construct 1 exCore (some [[(1, 3)]]) (some [(1, 30)]) (some [])
          (some []) (some []) (some [])).rowbeg + 0) = [(1, 3)] ∧
    exCore.rowStage (exCore.rowIn2Ex (exCore.stageRowPtr 1 + 0)) = 1 := by
  have h := C2_nodedelta_stage_filter 1 2 2 [0, 1] [1] [[(1, 2)]] (fullVec [5, 6] 2)
    (fullVec [7, 8] 2) (fullVec [1, 1] 2) (fullVec [0] 1) (fullVec [9] 1) 1 [[(1, 3)]]
    [(1, 30)] [] [] [] [] (by decide) (by decide)
  have hm := h.2.2.2.2.2.1 (by decide) 0 (by decide)
  exact ⟨h.1.trans (by decide), hm.1.trans (by decide), hm.2⟩

/-! ### Claim C1: combine-rule helpers -/

theorem find?_filter_invariant {α : Type} (l : List α) (p q : α → Bool)
    (h : ∀ x ∈ l, p x = true → q x = true) :
    (l.filter q).find? p = l.find? p := by
  induction l with
  | nil => rfl
  | cons a l ih =>
    by_cases hq : q a = true
    · rw [List.filter_cons_of_pos hq]
      by_cases hp : p a = true
      · rw [List.find?_cons_of_pos _ hp, List.find?_cons_of_pos _ hp]
      · rw [List.find?_cons_of_neg _ hp, List.find?_cons_of_neg _ hp]
        exact ih (fun x hx => h x (List.mem_cons_of_mem a hx))
    · rw [List.filter_cons_of_neg hq]
      have hp : ¬ p a = true := fun hpa => hq (h a (List.mem_cons_self a l) hpa)
      rw [List.find?_cons_of_neg _ hp]
      exact ih (fun x hx => h x (List.mem_cons_of_mem a hx))

theorem processSparse_lookup_override (cr nr : List (Nat × Rat)) (k : Nat) (v : Rat)
    (h : lookupSparse nr k = some v) :
    lookupSparse (processSparse cr nr) k = some v := by
  obtain ⟨e0, hfind⟩ : ∃ e0, nr.find? (fun e => e.1 == k) = some e0 := by
    unfold lookupSparse at h
    cases hf : nr.find? (fun e => e.1 == k) with
    | none => rw [hf] at h; simp at h
    | some e0 => exact ⟨e0, rfl⟩
  have he0 : e0 ∈ nr := List.mem_of_find?_eq_some hfind
  have hk0 : e0.1 = k := by simpa using List.find?_some hfind
  unfold lookupSparse processSparse
  rw [List.find?_append]
  have hfil : (cr.filter (fun e => !(nr.any (fun e2 => e2.1 == e.1)))).find?
      (fun e => e.1 == k) = none := by
    rw [List.find?_eq_none]
    intro e he hek
    rw [List.mem_filter] at he
    have hany : nr.any (fun e2 => e2.1 == e.1) = true :=
      List.any_eq_true.mpr ⟨e0, he0, by
        simp only [beq_iff_eq, hk0]
        exact (by simpa using hek : e.1 = k).symm⟩
    rw [hany] at he
    simpa using he.2
  rw [hfil, Option.none_or]
  unfold lookupSparse at h
  exact h

theorem processSparse_lookup_keep (cr nr : List (Nat × Rat)) (k : Nat)
    (h : lookupSparse nr k = none) :
    lookupSparse (processSparse cr nr) k = lookupSparse cr k := by
  have hnone : nr.find? (fun e => e.1 == k) = none := by
    unfold lookupSparse at h
    cases hf : nr.find? (fun e => e.1 == k) with
    | none => rfl
    | some e0 => rw [hf] at h; simp at h
  have hnk : ∀ e2 ∈ nr, ¬ e2.1 = k := by
    intro e2 he2 hk2
    have := List.find?_eq_none.mp hnone e2 he2
    simp [hk2] at this
  unfold lookupSparse processSparse
  rw [List.find?_append, hnone, Option.or_none]
  rw [find?_filter_invariant cr _ _ ?_]
  intro e he hek
  have hek2 : e.1 = k := by simpa using hek
  have hany : nr.any (fun e2 => e2.1 == e.1) = false := by
    rw [List.any_eq_false]
    intro e2 he2
    simp only [beq_iff_eq]
    rw [hek2]
    exact hnk e2 he2
  rw [hany]
  rfl

theorem processDense_filtered (f : Nat → Nat) (n t : Nat) (d : List Rat)
    (hd : d.length = cnt f n t) (V : List (Nat × Rat))
    (hb : ∀ e ∈ V, e.1 < n) (hnd : (V.map Prod.fst).Nodup) :
    (∀ c v, (c, v) ∈ V → f c = t →
      (processDense d (basePtr f n t)
          ((V.filter (fun e => decide (f e.1 = t))).map
            (fun e => ((placeAll f n).ex2in e.1, e.2)))).getD
        ((placeAll f n).ex2in c - basePtr f n t) 0 = v) ∧
    (∀ j, (∀ e ∈ V, f e.1 = t → (placeAll f n).ex2in e.1 ≠ basePtr f n t + j) →
      (processDense d (basePtr f n t)
          ((V.filter (fun e => decide (f e.1 = t))).map
            (fun e => ((placeAll f n).ex2in e.1, e.2)))).getD j 0 = d.getD j 0) := by
  have hVnd : V.Nodup := List.Nodup.of_map Prod.fst hnd
  have hfilsub : ((V.filter (fun e => decide (f e.1 = t))).map Prod.fst).Sublist
      (V.map Prod.fst) := List.Sublist.map Prod.fst (List.filter_sublist V)
  have hfilnd : ((V.filter (fun e => decide (f e.1 = t))).map Prod.fst).Nodup :=
    hfilsub.nodup hnd
  have hmemfil : ∀ e ∈ V.filter (fun e => decide (f e.1 = t)), e.1 < n ∧ f e.1 = t := by
    intro e he
    rw [List.mem_filter] at he
    exact ⟨hb e he.1, by simpa using he.2⟩
  have hge : ∀ e ∈ V.filter (fun e => decide (f e.1 = t)),
      basePtr f n t ≤ (placeAll f n).ex2in e.1 := by
    intro e he
    obtain ⟨hlt, hft⟩ := hmemfil e he
    rw [placeAll_ex2in f hlt]
    have h0 := e2i_ge f n e.1
    rw [hft] at h0
    exact h0
  have hlt2 : ∀ e ∈ V.filter (fun e => decide (f e.1 = t)),
      (placeAll f n).ex2in e.1 < basePtr f n t + cnt f n t := by
    intro e he
    obtain ⟨hlt, hft⟩ := hmemfil e he
    rw [placeAll_ex2in f hlt]
    have h0 := e2i_lt f hlt
    rw [hft, basePtr_succ] at h0
    exact h0
  have hadj : (((V.filter (fun e => decide (f e.1 = t))).map
      (fun e => ((placeAll f n).ex2in e.1, e.2))).map Prod.fst).map
        (fun x => x - basePtr f n t)
      = (V.filter (fun e => decide (f e.1 = t))).map
          (fun e => (placeAll f n).ex2in e.1 - basePtr f n t) := by
    rw [List.map_map, List.map_map]
    rfl
  have hadjnd : ((V.filter (fun e => decide (f e.1 = t))).map
      (fun e => (placeAll f n).ex2in e.1 - basePtr f n t)).Nodup := by
    apply List.Nodup.map_on
    · intro x hx y hy hxy
      obtain ⟨hxlt, hxft⟩ := hmemfil x hx
      obtain ⟨hylt, hyft⟩ := hmemfil y hy
      have hxg := hge x hx
      have hyg := hge y hy
      have hEeq : (placeAll f n).ex2in x.1 = (placeAll f n).ex2in y.1 := by omega
      rw [placeAll_ex2in f hxlt, placeAll_ex2in f hylt] at hEeq
      have hfst : x.1 = y.1 := e2i_inj f hxlt hylt hEeq
      exact List.inj_on_of_nodup_map hfilnd hx hy hfst
    · exact hVnd.filter _
  constructor
  · intro c v hm hft
    have hcn : c < n := hb _ hm
    have hmf : (c, v) ∈ V.filter (fun e => decide (f e.1 = t)) :=
      List.mem_filter.mpr ⟨hm, by simpa using hft⟩
    have hbound : (placeAll f n).ex2in c - basePtr f n t < d.length := by
      have h1 : basePtr f n t ≤ (placeAll f n).ex2in c := hge _ hmf
      have h2 : (placeAll f n).ex2in c < basePtr f n t + cnt f n t := hlt2 _ hmf
      omega
    apply processDense_getD_override
    · rw [hadj]
      exact hadjnd
    · have hm1 : ((placeAll f n).ex2in c, v)
          ∈ (V.filter (fun e => decide (f e.1 = t))).map
            (fun e => ((placeAll f n).ex2in e.1, e.2)) := by
        have := List.mem_map_of_mem
          (fun e => ((placeAll f n).ex2in (Prod.fst e), Prod.snd e)) hmf
        exact this
      have hm2 := List.mem_map_of_mem
        (fun e => (e.1 - basePtr f n t, e.2)) hm1
      exact hm2
    · exact hbound
  · intro j hj
    apply processDense_getD_keep
    intro e he
    obtain ⟨x, hx, hxe⟩ := List.mem_map.mp he
    obtain ⟨hxlt, hxft⟩ := hmemfil x hx
    have hxg := hge x hx
    have hxin : x ∈ V := List.mem_of_mem_filter hx
    have hne := hj x hxin hxft
    rw [← hxe]
    intro hcon
    apply hne
    omega

/-! ### Claim C1 -/

/-- C1: overwrite-wins combine semantics.  For a scenario (non-core) node
built from sparse override vectors restricted to stage `t`, each of the
five copy operations produces the core's dense stage-`t` array with every
index present in the override replaced by the override's value and every
other index unchanged; and the sparse matrix-row combine keeps the node
entry on a conflict (union of present indices, node entry wins) — a
scenario delta coefficient over a core coefficient combines to the delta
value, never the sum and never the core value. -/
theorem C1_overwrite_wins_combine (nrow ncol nstag : Nat) (cstag rstag : List Nat)
    (matrix : List (List (Nat × Rat))) (clo cup obj rlo rup : List Rat)
    (t : Nat) (Vclo Vcup Vobj Vrlo Vrup : List (Nat × Rat))
    (_hc : ∀ c, c < ncol → cstag.getD c 0 < nstag)
    (_hr : ∀ r, r < nrow → rstag.getD r 0 < nstag)
    (ht : t < nstag)
    (hbclo : ∀ e ∈ Vclo, e.1 < ncol) (hndclo : (Vclo.map Prod.fst).Nodup)
    (hbcup : ∀ e ∈ Vcup, e.1 < ncol) (hndcup : (Vcup.map Prod.fst).Nodup)
    (hbobj : ∀ e ∈ Vobj, e.1 < ncol) (hndobj : (Vobj.map Prod.fst).Nodup)
    (hbrlo : ∀ e ∈ Vrlo, e.1 < nrow) (hndrlo : (Vrlo.map Prod.fst).Nodup)
    (hbrup : ∀ e ∈ Vrup, e.1 < nrow) (hndrup : (Vrup.map Prod.fst).Nodup) :
    (∀ c v, (c, v) ∈ Vclo → (SmiCoreData.coreFromDense nrow ncol nstag cstag rstag matrix clo cup obj rlo rup).colStage c = t →
      (SmiNodeData.copyColLower (SmiCoreData.coreFromDense nrow ncol nstag cstag rstag matrix clo cup obj rlo rup)
        (SmiNodeData.construct t (SmiCoreData.coreFromDense nrow ncol nstag cstag rstag matrix clo cup obj rlo rup)
        none (some Vclo) (some Vcup) (some Vobj) (some Vrlo) (some Vrup))).getD
        ((SmiCoreData.coreFromDense nrow ncol nstag cstag rstag matrix clo cup obj rlo rup).colEx2In c - (SmiCoreData.coreFromDense nrow ncol nstag cstag rstag matrix clo cup obj rlo rup).stageColPtr t) 0 = v) ∧
    (∀ j, (∀ e ∈ Vclo, (SmiCoreData.coreFromDense nrow ncol nstag cstag rstag matrix clo cup obj rlo rup).colStage e.1 = t →
        (SmiCoreData.coreFromDense nrow ncol nstag cstag rstag matrix clo cup obj rlo rup).colEx2In e.1 ≠ (SmiCoreData.coreFromDense nrow ncol nstag cstag rstag matrix clo cup obj rlo rup).stageColPtr t + j) →
      (SmiNodeData.copyColLower (SmiCoreData.coreFromDense nrow ncol nstag cstag rstag matrix clo cup obj rlo rup)
        (SmiNodeData.construct t (SmiCoreData.coreFromDense nrow ncol nstag cstag rstag matrix clo cup obj rlo rup)
        none (some Vclo) (some Vcup) (some Vobj) (some Vrlo) (some Vrup))).getD j 0
        = (SmiCoreData.copyColLower (SmiCoreData.coreFromDense nrow ncol nstag cstag rstag matrix clo cup obj rlo rup) t).getD j 0) ∧
    (∀ c v, (c, v) ∈ Vcup → (SmiCoreData.coreFromDense nrow ncol nstag cstag rstag matrix clo cup obj rlo rup).colStage c = t →
      (SmiNodeData.copyColUpper (SmiCoreData.coreFromDense nrow ncol nstag cstag rstag matrix clo cup obj rlo rup)
        (SmiNodeData.construct t (SmiCoreData.coreFromDense nrow ncol nstag cstag rstag matrix clo cup obj rlo rup)
        none (some Vclo) (some Vcup) (some Vobj) (some Vrlo) (some Vrup))).getD
        ((SmiCoreData.coreFromDense nrow ncol nstag cstag rstag matrix clo cup obj rlo rup).colEx2In c - (SmiCoreData.coreFromDense nrow ncol nstag cstag rstag matrix clo cup obj rlo rup).stageColPtr t) 0 = v) ∧
    (∀ j, (∀ e ∈ Vcup, (SmiCoreData.coreFromDense nrow ncol nstag cstag rstag matrix clo cup obj rlo rup).colStage e.1 = t →
        (SmiCoreData.coreFromDense nrow ncol nstag cstag rstag matrix clo cup obj rlo rup).colEx2In e.1 ≠ (SmiCoreData.coreFromDense nrow ncol nstag cstag rstag matrix clo cup obj rlo rup).stageColPtr t + j) →
      (SmiNodeData.copyColUpper (SmiCoreData.coreFromDense nrow ncol nstag cstag rstag matrix clo cup obj rlo rup)
        (SmiNodeData.construct t (SmiCoreData.coreFromDense nrow ncol nstag cstag rstag matrix clo cup obj rlo rup)
        none (some Vclo) (some Vcup) (some Vobj) (some Vrlo) (some Vrup))).getD j 0
        = (SmiCoreData.copyColUpper (SmiCoreData.coreFromDense nrow ncol nstag cstag rstag matrix clo cup obj rlo rup) t).getD j 0) ∧
    (∀ c v, (c, v) ∈ Vobj → (SmiCoreData.coreFromDense nrow ncol nstag cstag rstag matrix clo cup obj rlo rup).colStage c = t →
      (SmiNodeData.copyObjective (SmiCoreData.coreFromDense nrow ncol nstag cstag rstag matrix clo cup obj rlo rup)
        (SmiNodeData.construct t (SmiCoreData.coreFromDense nrow ncol nstag cstag rstag matrix clo cup obj rlo rup)
        none (some Vclo) (some Vcup) (some Vobj) (some Vrlo) (some Vrup))).getD
        ((SmiCoreData.coreFromDense nrow ncol nstag cstag rstag matrix clo cup obj rlo rup).colEx2In c - (SmiCoreData.coreFromDense nrow ncol nstag cstag rstag matrix clo cup obj rlo rup).stageColPtr t) 0 = v) ∧
    (∀ j, (∀ e ∈ Vobj, (SmiCoreData.coreFromDense nrow ncol nstag cstag rstag matrix clo cup obj rlo rup).colStage e.1 = t →
        (SmiCoreData.coreFromDense nrow ncol nstag cstag rstag matrix clo cup obj rlo rup).colEx2In e.1 ≠ (SmiCoreData.coreFromDense nrow ncol nstag cstag rstag matrix clo cup obj rlo rup).stageColPtr t + j) →
      (SmiNodeData.copyObjective (SmiCoreData.coreFromDense nrow ncol nstag cstag rstag matrix clo cup obj rlo rup)
        (SmiNodeData.construct t (SmiCoreData.coreFromDense nrow ncol nstag cstag rstag matrix clo cup obj rlo rup)
        none (some Vclo) (some Vcup) (some Vobj) (some Vrlo) (some Vrup))).getD j 0
        = (SmiCoreData.copyObjective (SmiCoreData.coreFromDense nrow ncol nstag cstag rstag matrix clo cup obj rlo rup) t).getD j 0) ∧
    (∀ c v, (c, v) ∈ Vrlo → (SmiCoreData.coreFromDense nrow ncol nstag cstag rstag matrix clo cup obj rlo rup).rowStage c = t →
      (SmiNodeData.copyRowLower (SmiCoreData.coreFromDense nrow ncol nstag cstag rstag matrix clo cup obj rlo rup)
        (SmiNodeData.construct t (SmiCoreData.coreFromDense nrow ncol nstag cstag rstag matrix clo cup obj rlo rup)
        none (some Vclo) (some Vcup) (some Vobj) (some Vrlo) (some Vrup))).getD
        ((SmiCoreData.coreFromDense nrow ncol nstag cstag rstag matrix clo cup obj rlo rup).rowEx2In c - (SmiCoreData.coreFromDense nrow ncol nstag cstag rstag matrix clo cup obj rlo rup).stageRowPtr t) 0 = v) ∧
    (∀ j, (∀ e ∈ Vrlo, (SmiCoreData.coreFromDense nrow ncol nstag cstag rstag matrix clo cup obj rlo rup).rowStage e.1 = t →
        (SmiCoreData.coreFromDense nrow ncol nstag cstag rstag matrix clo cup obj rlo rup).rowEx2In e.1 ≠ (SmiCoreData.coreFromDense nrow ncol nstag cstag rstag matrix clo cup obj rlo rup).stageRowPtr t + j) →
      (SmiNodeData.copyRowLower (SmiCoreData.coreFromDense nrow ncol nstag cstag rstag matrix clo cup obj rlo rup)
        (SmiNodeData.construct t (SmiCoreData.coreFromDense nrow ncol nstag cstag rstag matrix clo cup obj rlo rup)
        none (some Vclo) (some Vcup) (some Vobj) (some Vrlo) (some Vrup))).getD j 0
        = (SmiCoreData.copyRowLower (SmiCoreData.coreFromDense nrow ncol nstag cstag rstag matrix clo cup obj rlo rup) t).getD j 0) ∧
    (∀ c v, (c, v) ∈ Vrup → (SmiCoreData.coreFromDense nrow ncol nstag cstag rstag matrix clo cup obj rlo rup).rowStage c = t →
      (SmiNodeData.copyRowUpper (SmiCoreData.coreFromDense nrow ncol nstag cstag rstag matrix clo cup obj rlo rup)
        (SmiNodeData.construct t (SmiCoreData.coreFromDense nrow ncol nstag cstag rstag matrix clo cup obj rlo rup)
        none (some Vclo) (some Vcup) (some Vobj) (some Vrlo) (some Vrup))).getD
        ((SmiCoreData.coreFromDense nrow ncol nstag cstag rstag matrix clo cup obj rlo rup).rowEx2In c - (SmiCoreData.coreFromDense nrow ncol nstag cstag rstag matrix clo cup obj rlo rup).stageRowPtr t) 0 = v) ∧
    (∀ j, (∀ e ∈ Vrup, (SmiCoreData.coreFromDense nrow ncol nstag cstag rstag matrix clo cup obj rlo rup).rowStage e.1 = t →
        (SmiCoreData.coreFromDense nrow ncol nstag cstag rstag matrix clo cup obj rlo rup).rowEx2In e.1 ≠ (SmiCoreData.coreFromDense nrow ncol nstag cstag rstag matrix clo cup obj rlo rup).stageRowPtr t + j) →
      (SmiNodeData.copyRowUpper (SmiCoreData.coreFromDense nrow ncol nstag cstag rstag matrix clo cup obj rlo rup)
        (SmiNodeData.construct t (SmiCoreData.coreFromDense nrow ncol nstag cstag rstag matrix clo cup obj rlo rup)
        none (some Vclo) (some Vcup) (some Vobj) (some Vrlo) (some Vrup))).getD j 0
        = (SmiCoreData.copyRowUpper (SmiCoreData.coreFromDense nrow ncol nstag cstag rstag matrix clo cup obj rlo rup) t).getD j 0) ∧
    (∀ cr nr k v, lookupSparse nr k = some v →
      lookupSparse (SmiNodeData.combineWithCoreRow
        (SmiNodeData.construct t (SmiCoreData.coreFromDense nrow ncol nstag cstag rstag matrix clo cup obj rlo rup)
        none (some Vclo) (some Vcup) (some Vobj) (some Vrlo) (some Vrup)) cr nr) k = some v) ∧
    (∀ cr nr k, lookupSparse nr k = none →
      lookupSparse (SmiNodeData.combineWithCoreRow
        (SmiNodeData.construct t (SmiCoreData.coreFromDense nrow ncol nstag cstag rstag matrix clo cup obj rlo rup)
        none (some Vclo) (some Vcup) (some Vobj) (some Vrlo) (some Vrup)) cr nr) k = lookupSparse cr k) := by
  have hdlenClo : (SmiCoreData.copyColLower (SmiCoreData.coreFromDense nrow ncol nstag cstag rstag matrix clo cup obj rlo rup) t).length
      = cnt (fun c => cstag.getD c 0) ncol t := by
    show (SmiCoreData.copyColLower (SmiCoreData.gutsOfConstructor nrow ncol nstag cstag
      rstag matrix (fullVec clo ncol) (fullVec cup ncol) (fullVec obj ncol)
      (fullVec rlo nrow) (fullVec rup nrow)) t).length = _
    unfold SmiCoreData.copyColLower
    rw [guts_cdclo nrow ncol nstag cstag rstag matrix (fullVec clo ncol)
      (fullVec cup ncol) (fullVec obj ncol) (fullVec rlo nrow) (fullVec rup nrow) ht]
    rw [List.length_take, denseFromSeg_length]
    exact Nat.min_self _
  have hdlenCup : (SmiCoreData.copyColUpper (SmiCoreData.coreFromDense nrow ncol nstag cstag rstag matrix clo cup obj rlo rup) t).length
      = cnt (fun c => cstag.getD c 0) ncol t := by
    show (SmiCoreData.copyColUpper (SmiCoreData.gutsOfConstructor nrow ncol nstag cstag
      rstag matrix (fullVec clo ncol) (fullVec cup ncol) (fullVec obj ncol)
      (fullVec rlo nrow) (fullVec rup nrow)) t).length = _
    unfold SmiCoreData.copyColUpper
    rw [guts_cdcup nrow ncol nstag cstag rstag matrix (fullVec clo ncol)
      (fullVec cup ncol) (fullVec obj ncol) (fullVec rlo nrow) (fullVec rup nrow) ht]
    rw [List.length_take, denseFromSeg_length]
    exact Nat.min_self _
  have hdlenObj : (SmiCoreData.copyObjective (SmiCoreData.coreFromDense nrow ncol nstag cstag rstag matrix clo cup obj rlo rup) t).length
      = cnt (fun c => cstag.getD c 0) ncol t := by
    show (SmiCoreData.copyObjective (SmiCoreData.gutsOfConstructor nrow ncol nstag cstag
      rstag matrix (fullVec clo ncol) (fullVec cup ncol) (fullVec obj ncol)
      (fullVec rlo nrow) (fullVec rup nrow)) t).length = _
    unfold SmiCoreData.copyObjective
    rw [guts_cdobj nrow ncol nstag cstag rstag matrix (fullVec clo ncol)
      (fullVec cup ncol) (fullVec obj ncol) (fullVec rlo nrow) (fullVec rup nrow) ht]
    rw [List.length_take, denseFromSeg_length]
    exact Nat.min_self _
  have hdlenRlo : (SmiCoreData.copyRowLower (SmiCoreData.coreFromDense nrow ncol nstag cstag rstag matrix clo cup obj rlo rup) t).length
      = cnt (fun r => rstag.getD r 0) nrow t := by
    show (SmiCoreData.copyRowLower (SmiCoreData.gutsOfConstructor nrow ncol nstag cstag
      rstag matrix (fullVec clo ncol) (fullVec cup ncol) (fullVec obj ncol)
      (fullVec rlo nrow) (fullVec rup nrow)) t).length = _
    unfold SmiCoreData.copyRowLower
    rw [guts_cdrlo nrow ncol nstag cstag rstag matrix (fullVec clo ncol)
      (fullVec cup ncol) (fullVec obj ncol) (fullVec rlo nrow) (fullVec rup nrow) ht]
    rw [List.length_take, denseFromSeg_length]
    exact Nat.min_self _
  have hdlenRup : (SmiCoreData.copyRowUpper (SmiCoreData.coreFromDense nrow ncol nstag cstag rstag matrix clo cup obj rlo rup) t).length
      = cnt (fun r => rstag.getD r 0) nrow t := by
    show (SmiCoreData.copyRowUpper (SmiCoreData.gutsOfConstructor nrow ncol nstag cstag
      rstag matrix (fullVec clo ncol) (fullVec cup ncol) (fullVec obj ncol)
      (fullVec rlo nrow) (fullVec rup nrow)) t).length = _
    unfold SmiCoreData.copyRowUpper
    rw [guts_cdrup nrow ncol nstag cstag rstag matrix (fullVec clo ncol)
      (fullVec cup ncol) (fullVec obj ncol) (fullVec rlo nrow) (fullVec rup nrow) ht]
    rw [List.length_take, denseFromSeg_length]
    exact Nat.min_self _
  refine ⟨?_, ?_, ?_, ?_, ?_, ?_, ?_, ?_, ?_, ?_, ?_, ?_⟩
  · intro c v hm hft
    rw [show SmiNodeData.copyColLower (SmiCoreData.coreFromDense nrow ncol nstag cstag rstag matrix clo cup obj rlo rup)
        (SmiNodeData.construct t (SmiCoreData.coreFromDense nrow ncol nstag cstag rstag matrix clo cup obj rlo rup)
        none (some Vclo) (some Vcup) (some Vobj) (some Vrlo) (some Vrup))
        = processDense (SmiCoreData.copyColLower (SmiCoreData.coreFromDense nrow ncol nstag cstag rstag matrix clo cup obj rlo rup) t)
          ((SmiCoreData.coreFromDense nrow ncol nstag cstag rstag matrix clo cup obj rlo rup).stageColPtr t)
          (SmiNodeData.construct t (SmiCoreData.coreFromDense nrow ncol nstag cstag rstag matrix clo cup obj rlo rup)
        none (some Vclo) (some Vcup) (some Vobj) (some Vrlo) (some Vrup)).cloSeg from rfl]
    rw [construct_cloSeg]
    exact (processDense_filtered (fun c => cstag.getD c 0) ncol t _ hdlenClo Vclo hbclo
      hndclo).1 c v hm hft
  · intro j hkeep
    rw [show SmiNodeData.copyColLower (SmiCoreData.coreFromDense nrow ncol nstag cstag rstag matrix clo cup obj rlo rup)
        (SmiNodeData.construct t (SmiCoreData.coreFromDense nrow ncol nstag cstag rstag matrix clo cup obj rlo rup)
        none (some Vclo) (some Vcup) (some Vobj) (some Vrlo) (some Vrup))
        = processDense (SmiCoreData.copyColLower (SmiCoreData.coreFromDense nrow ncol nstag cstag rstag matrix clo cup obj rlo rup) t)
          ((SmiCoreData.coreFromDense nrow ncol nstag cstag rstag matrix clo cup obj rlo rup).stageColPtr t)
          (SmiNodeData.construct t (SmiCoreData.coreFromDense nrow ncol nstag cstag rstag matrix clo cup obj rlo rup)
        none (some Vclo) (some Vcup) (some Vobj) (some Vrlo) (some Vrup)).cloSeg from rfl]
    rw [construct_cloSeg]
    exact (processDense_filtered (fun c => cstag.getD c 0) ncol t _ hdlenClo Vclo hbclo
      hndclo).2 j hkeep
  · intro c v hm hft
    rw [show SmiNodeData.copyColUpper (SmiCoreData.coreFromDense nrow ncol nstag cstag rstag matrix clo cup obj rlo rup)
        (SmiNodeData.construct t (SmiCoreData.coreFromDense nrow ncol nstag cstag rstag matrix clo cup obj rlo rup)
        none (some Vclo) (some Vcup) (some Vobj) (some Vrlo) (some Vrup))
        = processDense (SmiCoreData.copyColUpper (SmiCoreData.coreFromDense nrow ncol nstag cstag rstag matrix clo cup obj rlo rup) t)
          ((SmiCoreData.coreFromDense nrow ncol nstag cstag rstag matrix clo cup obj rlo rup).stageColPtr t)
          (SmiNodeData.construct t (SmiCoreData.coreFromDense nrow ncol nstag cstag rstag matrix clo cup obj rlo rup)
        none (some Vclo) (some Vcup) (some Vobj) (some Vrlo) (some Vrup)).cupSeg from rfl]
    rw [construct_cupSeg]
    exact (processDense_filtered (fun c => cstag.getD c 0) ncol t _ hdlenCup Vcup hbcup
      hndcup).1 c v hm hft
  · intro j hkeep
    rw [show SmiNodeData.copyColUpper (SmiCoreData.coreFromDense nrow ncol nstag cstag rstag matrix clo cup obj rlo rup)
        (SmiNodeData.construct t (SmiCoreData.coreFromDense nrow ncol nstag cstag rstag matrix clo cup obj rlo rup)
        none (some Vclo) (some Vcup) (some Vobj) (some Vrlo) (some Vrup))
        = processDense (SmiCoreData.copyColUpper (SmiCoreData.coreFromDense nrow ncol nstag cstag rstag matrix clo cup obj rlo rup) t)
          ((SmiCoreData.coreFromDense nrow ncol nstag cstag rstag matrix clo cup obj rlo rup).stageColPtr t)
          (SmiNodeData.construct t (SmiCoreData.coreFromDense nrow ncol nstag cstag rstag matrix clo cup obj rlo rup)
        none (some Vclo) (some Vcup) (some Vobj) (some Vrlo) (some Vrup)).cupSeg from rfl]
    rw [construct_cupSeg]
    exact (processDense_filtered (fun c => cstag.getD c 0) ncol t _ hdlenCup Vcup hbcup
      hndcup).2 j hkeep
  · intro c v hm hft
    rw [show SmiNodeData.copyObjective (SmiCoreData.coreFromDense nrow ncol nstag cstag rstag matrix clo cup obj rlo rup)
        (SmiNodeData.construct t (SmiCoreData.coreFromDense nrow ncol nstag cstag rstag matrix clo cup obj rlo rup)
        none (some Vclo) (some Vcup) (some Vobj) (some Vrlo) (some Vrup))
        = processDense (SmiCoreData.copyObjective (SmiCoreData.coreFromDense nrow ncol nstag cstag rstag matrix clo cup obj rlo rup) t)
          ((SmiCoreData.coreFromDense nrow ncol nstag cstag rstag matrix clo cup obj rlo rup).stageColPtr t)
          (SmiNodeData.construct t (SmiCoreData.coreFromDense nrow ncol nstag cstag rstag matrix clo cup obj rlo rup)
        none (some Vclo) (some Vcup) (some Vobj) (some Vrlo) (some Vrup)).objSeg from rfl]
    rw [construct_objSeg]
    exact (processDense_filtered (fun c => cstag.getD c 0) ncol t _ hdlenObj Vobj hbobj
      hndobj).1 c v hm hft
  · intro j hkeep
    rw [show SmiNodeData.copyObjective (SmiCoreData.coreFromDense nrow ncol nstag cstag rstag matrix clo cup obj rlo rup)
        (SmiNodeData.construct t (SmiCoreData.coreFromDense nrow ncol nstag cstag rstag matrix clo cup obj rlo rup)
        none (some Vclo) (some Vcup) (some Vobj) (some Vrlo) (some Vrup))
        = processDense (SmiCoreData.copyObjective (SmiCoreData.coreFromDense nrow ncol nstag cstag rstag matrix clo cup obj rlo rup) t)
          ((SmiCoreData.coreFromDense nrow ncol nstag cstag rstag matrix clo cup obj rlo rup).stageColPtr t)
          (SmiNodeData.construct t (SmiCoreData.coreFromDense nrow ncol nstag cstag rstag matrix clo cup obj rlo rup)
        none (some Vclo) (some Vcup) (some Vobj) (some Vrlo) (some Vrup)).objSeg from rfl]
    rw [construct_objSeg]
    exact (processDense_filtered (fun c => cstag.getD c 0) ncol t _ hdlenObj Vobj hbobj
      hndobj).2 j hkeep
  · intro c v hm hft
    rw [show SmiNodeData.copyRowLower (SmiCoreData.coreFromDense nrow ncol nstag cstag rstag matrix clo cup obj rlo rup)
        (SmiNodeData.construct t (SmiCoreData.coreFromDense nrow ncol nstag cstag rstag matrix clo cup obj rlo rup)
        none (some Vclo) (some Vcup) (some Vobj) (some Vrlo) (some Vrup))
        = processDense (SmiCoreData.copyRowLower (SmiCoreData.coreFromDense nrow ncol nstag cstag rstag matrix clo cup obj rlo rup) t)
          ((SmiCoreData.coreFromDense nrow ncol nstag cstag rstag matrix clo cup obj rlo rup).stageRowPtr t)
          (SmiNodeData.construct t (SmiCoreData.coreFromDense nrow ncol nstag cstag rstag matrix clo cup obj rlo rup)
        none (some Vclo) (some Vcup) (some Vobj) (some Vrlo) (some Vrup)).rloSeg from rfl]
    rw [construct_rloSeg]
    exact (processDense_filtered (fun r => rstag.getD r 0) nrow t _ hdlenRlo Vrlo hbrlo
      hndrlo).1 c v hm hft
  · intro j hkeep
    rw [show SmiNodeData.copyRowLower (SmiCoreData.coreFromDense nrow ncol nstag cstag rstag matrix clo cup obj rlo rup)
        (SmiNodeData.construct t (SmiCoreData.coreFromDense nrow ncol nstag cstag rstag matrix clo cup obj rlo rup)
        none (some Vclo) (some Vcup) (some Vobj) (some Vrlo) (some Vrup))
        = processDense (SmiCoreData.copyRowLower (SmiCoreData.coreFromDense nrow ncol nstag cstag rstag matrix clo cup obj rlo rup) t)
          ((SmiCoreData.coreFromDense nrow ncol nstag cstag rstag matrix clo cup obj rlo rup).stageRowPtr t)
          (SmiNodeData.construct t (SmiCoreData.coreFromDense nrow ncol nstag cstag rstag matrix clo cup obj rlo rup)
        none (some Vclo) (some Vcup) (some Vobj) (some Vrlo) (some Vrup)).rloSeg from rfl]
    rw [construct_rloSeg]
    exact (processDense_filtered (fun r => rstag.getD r 0) nrow t _ hdlenRlo Vrlo hbrlo
      hndrlo).2 j hkeep
  · intro c v hm hft
    rw [show SmiNodeData.copyRowUpper (SmiCoreData.coreFromDense nrow ncol nstag cstag rstag matrix clo cup obj rlo rup)
        (SmiNodeData.construct t (SmiCoreData.coreFromDense nrow ncol nstag cstag rstag matrix clo cup obj rlo rup)
        none (some Vclo) (some Vcup) (some Vobj) (some Vrlo) (some Vrup))
        = processDense (SmiCoreData.copyRowUpper (SmiCoreData.coreFromDense nrow ncol nstag cstag rstag matrix clo cup obj rlo rup) t)
          ((SmiCoreData.coreFromDense nrow ncol nstag cstag rstag matrix clo cup obj rlo rup).stageRowPtr t)
          (SmiNodeData.construct t (SmiCoreData.coreFromDense nrow ncol nstag cstag rstag matrix clo cup obj rlo rup)
        none (some Vclo) (some Vcup) (some Vobj) (some Vrlo) (some Vrup)).rupSeg from rfl]
    rw [construct_rupSeg]
    exact (processDense_filtered (fun r => rstag.getD r 0) nrow t _ hdlenRup Vrup hbrup
      hndrup).1 c v hm hft
  · intro j hkeep
    rw [show SmiNodeData.copyRowUpper (SmiCoreData.coreFromDense nrow ncol nstag cstag rstag matrix clo cup obj rlo rup)
        (SmiNodeData.construct t (SmiCoreData.coreFromDense nrow ncol nstag cstag rstag matrix clo cup obj rlo rup)
        none (some Vclo) (some Vcup) (some Vobj) (some Vrlo) (some Vrup))
        = processDense (SmiCoreData.copyRowUpper (SmiCoreData.coreFromDense nrow ncol nstag cstag rstag matrix clo cup obj rlo rup) t)
          ((SmiCoreData.coreFromDense nrow ncol nstag cstag rstag matrix clo cup obj rlo rup).stageRowPtr t)
          (SmiNodeData.construct t (SmiCoreData.coreFromDense nrow ncol nstag cstag rstag matrix clo cup obj rlo rup)
        none (some Vclo) (some Vcup) (some Vobj) (some Vrlo) (some Vrup)).rupSeg from rfl]
    rw [construct_rupSeg]
    exact (processDense_filtered (fun r => rstag.getD r 0) nrow t _ hdlenRup Vrup hbrup
      hndrup).2 j hkeep
  · intro cr nr k v h
    exact processSparse_lookup_override cr nr k v h
  · intro cr nr k h
    exact processSparse_lookup_keep cr nr k h

/-- Witness for C1, the spec's scenario example: combining the core row
(coefficient 2 on column 1) with the scenario delta (coefficient 3 at the
same position) yields 3, not 5 and not 2; and a column-lower override 30
on the stage-1 column replaces the core bound in `copyColLower`. -/
theorem C1_witness :
    lookupSparse (SmiNodeData.combineWithCoreRow
      (SmiNodeData.construct 1 exCore none (some [(1, 30)]) (some []) (some [])
        (some []) (some [])) [(1, 2)] [(1, 3)]) 1 = some 3 ∧
    (SmiNodeData.copyColLower exCore
      (SmiNodeData.construct 1 exCore none (some [(1, 30)]) (some []) (some [])
        (some []) (some []))).getD (exCore.colEx2In 1 - exCore.stageColPtr 1) 0
      = 30 := by
  have h := C1_overwrite_wins_combine 1 2 2 [0, 1] [1] [[(1, 2)]] [5, 6] [7, 8] [1, 1]
    [0] [9] 1 [(1, 30)] [] [] [] [] (by decide) (by decide) (by decide)
    (by decide) (by decide) (by decide) (by decide) (by decide) (by decide)
    (by decide) (by decide) (by decide) (by decide)
  constructor
  · exact h.2.2.2.2.2.2.2.2.2.2.1 [(1, 2)] [(1, 3)] 1 3 (by decide)
  · exact h.1 1 30 (by decide) (by decide)

/-! ### Claim C7 -/

theorem sortPairs_sorted (l : List (Nat × Rat)) :
    List.Pairwise (fun a b : Nat × Rat => a.1 ≤ b.1) (sortPairs l) :=
  List.sorted_insertionSort _ l

theorem sortPairs_perm (l : List (Nat × Rat)) : (sortPairs l).Perm l :=
  List.perm_insertionSort _ l

theorem sortPairs_chain_lt (l : List (Nat × Rat)) (hnd : (l.map Prod.fst).Nodup) :
    List.Chain' (· < ·) ((sortPairs l).map Prod.fst) := by
  rw [List.chain'_iff_pairwise, List.pairwise_map]
  have h1 : List.Pairwise (fun a b : Nat × Rat => a.1 ≤ b.1) (sortPairs l) :=
    sortPairs_sorted l
  have h2 : ((sortPairs l).map Prod.fst).Nodup :=
    (((sortPairs_perm l).map Prod.fst).nodup_iff).mpr hnd
  have h3 : List.Pairwise (fun a b : Nat × Rat => a.1 ≠ b.1) (sortPairs l) :=
    List.pairwise_map.mp h2
  exact (h1.and h3).imp (fun hab => Nat.lt_of_le_of_ne hab.1 hab.2)

theorem mapped_row_nodup (f : Nat → Nat) (n : Nat) (row : List (Nat × Rat))
    (hnd : (row.map Prod.fst).Nodup) (hb : ∀ e ∈ row, e.1 < n) :
    ((row.map (fun e => ((placeAll f n).ex2in e.1, e.2))).map Prod.fst).Nodup := by
  have heq : (row.map (fun e => ((placeAll f n).ex2in e.1, e.2))).map Prod.fst
      = (row.map Prod.fst).map (fun c => (placeAll f n).ex2in c) := by
    rw [List.map_map, List.map_map]
    rfl
  rw [heq]
  apply List.Nodup.map_on ?_ hnd
  intro x hx y hy hxy
  obtain ⟨ex, hex, hex2⟩ := List.mem_map.mp hx
  obtain ⟨ey, hey, hey2⟩ := List.mem_map.mp hy
  have hxn : x < n := hex2 ▸ hb ex hex
  have hyn : y < n := hey2 ▸ hb ey hey
  rw [placeAll_ex2in f hxn, placeAll_ex2in f hyn] at hxy
  exact e2i_inj f hxn hyn hxy

/-- Counterexample for C7: a scenario `SmiNodeData` (constructed directly,
not through `gutsOfConstructor`) stores matrix-row column indices `[1, 0]`
— the `SmiNodeData` constructor translates indices to internal numbering
but performs no re-sorting, so with interleaved stage labels the stored
order is strictly descending, contradicting the claim that every
constructed NodeDelta has strictly ascending row indices. -/
theorem C7_counterexample :
    (c7node.rowSeg 0).map Prod.fst = [1, 0] ∧
    ¬ List.Chain' (· < ·) ((c7node.rowSeg 0).map Prod.fst) := by
  have h1 : (c7node.rowSeg 0).map Prod.fst = [1, 0] := by decide
  refine ⟨h1, ?_⟩
  rw [h1]
  simp [List.chain'_cons]

/-- C7 (amended): the re-sorting happens in `gutsOfConstructor`, not in
the `SmiNodeData` constructor, so the ascending-order guarantee holds for
the CORE nodes (those stored in `nodes_`): every matrix row of every core
node has strictly ascending internal column indices, provided each input
row's external column indices are duplicate-free and in range.  Scenario
nodes built directly through the `SmiNodeData` constructor are not sorted
(see the counterexample). -/
theorem C7_amended_core_rows_sorted (nrow ncol nstag : Nat) (cstag rstag : List Nat)
    (gmatrix : List (List (Nat × Rat)))
    (gdclo gdcup gdobj gdrlo gdrup : List (Nat × Rat))
    (hrows : ∀ row ∈ gmatrix, (row.map Prod.fst).Nodup ∧ ∀ e ∈ row, e.1 < ncol)
    {t : Nat} (ht : t < nstag) {nd : SmiNodeData}
    (hget : (SmiCoreData.gutsOfConstructor nrow ncol nstag cstag rstag gmatrix gdclo
      gdcup gdobj gdrlo gdrup).nodes.get? t = some nd)
    {i : Nat} (hi : i < nd.nrow) :
    List.Chain' (· < ·) ((nd.rowSeg (nd.rowbeg + i)).map Prod.fst) := by
  rw [guts_nodes_get nrow ncol nstag cstag rstag gmatrix gdclo gdcup gdobj gdrlo gdrup
    ht] at hget
  injection hget with h
  subst h
  by_cases hM : hasMat (some gmatrix) = true
  · have hi2 : i < (SmiCoreData.mapsCore nrow ncol nstag cstag rstag).nRowInStage t := hi
    rw [sorted_rowSeg t (SmiCoreData.mapsCore nrow ncol nstag cstag rstag) (some gmatrix)
      (some gdclo) (some gdcup) (some gdobj) (some gdrlo) (some gdrup) hM hi2]
    apply sortPairs_chain_lt
    rw [show constructMRows t (SmiCoreData.mapsCore nrow ncol nstag cstag rstag)
        (some gmatrix) = matRowsOf (SmiCoreData.mapsCore nrow ncol nstag cstag rstag) t
        gmatrix from by
      unfold constructMRows
      rw [hM]
      rfl]
    rw [matRowsOf_getD _ t gmatrix hi2]
    rcases Nat.lt_or_ge ((SmiCoreData.mapsCore nrow ncol nstag cstag rstag).rowIn2Ex
        ((SmiCoreData.mapsCore nrow ncol nstag cstag rstag).stageRowPtr t + i))
        gmatrix.length with hR | hR
    · have hmem : gmatrix.getD ((SmiCoreData.mapsCore nrow ncol nstag cstag rstag).rowIn2Ex
          ((SmiCoreData.mapsCore nrow ncol nstag cstag rstag).stageRowPtr t + i)) []
          ∈ gmatrix := by
        rw [List.getD_eq_getElem _ _ hR]
        exact List.getElem_mem hR
      obtain ⟨hnd0, hb0⟩ := hrows _ hmem
      exact mapped_row_nodup (fun c => cstag.getD c 0) ncol _ hnd0 hb0
    · rw [List.getD_eq_default _ _ hR]
      simp
  · have hhm : (((SmiNodeData.construct t (SmiCoreData.mapsCore nrow ncol nstag cstag
        rstag) (some gmatrix) (some gdclo) (some gdcup) (some gdobj) (some gdrlo)
        (some gdrup)).setCoreNode).sortRows).has_matrix = false := by
      have hf : hasMat (some gmatrix) = false := by simpa using hM
      exact hf
    unfold SmiNodeData.rowSeg
    rw [hhm]
    simp

/-- Witness for the amended C7: the stage-0 core node of `c7core` stores
its matrix row with strictly ascending internal column indices `[0, 1]`
(the constructor had produced `[1, 0]`, see the counterexample; the
sorting loop of `gutsOfConstructor` reordered it). -/
theorem C7_witness :
    List.Chain' (· < ·) ((c7coreNode0.rowSeg (c7coreNode0.rowbeg + 0)).map Prod.fst) ∧
    (c7coreNode0.rowSeg (c7coreNode0.rowbeg + 0)).map Prod.fst = [0, 1] := by
  have hget : (SmiCoreData.gutsOfConstructor 1 2 2 [1, 0] [0] [[(0, 5), (1, 7)]]
      (fullVec [0, 0] 2) (fullVec [0, 0] 2) (fullVec [0, 0] 2) (fullVec [0] 1)
      (fullVec [0] 1)).nodes.get? 0 = some c7coreNode0 :=
    guts_nodes_get 1 2 2 [1, 0] [0] [[(0, 5), (1, 7)]] (fullVec [0, 0] 2)
      (fullVec [0, 0] 2) (fullVec [0, 0] 2) (fullVec [0] 1) (fullVec [0] 1) (by decide)
  exact ⟨C7_amended_core_rows_sorted 1 2 2 [1, 0] [0] [[(0, 5), (1, 7)]]
    (fullVec [0, 0] 2) (fullVec [0, 0] 2) (fullVec [0, 0] 2) (fullVec [0] 1)
    (fullVec [0] 1) (by decide) (by decide) hget (by decide), by decide⟩

/-! ### Claim C10 -/

/-- Counterexample for C10: a node constructed without a matrix but with
one delta entry has `strt_ = [0,1,1,1,1,1,0]`.  Read as "`nrow+1` matrix
row starts followed by the five category boundary markers", the offset
array is not monotone and its final slot (0) differs from the 1 entry
actually stored: when no matrix is present the source records only the
markers `strt_[0..5]` and the trailing `nrow` slots keep their `calloc`
value 0, so the claimed layout does not hold for every constructed node. -/
theorem C10_counterexample :
    c10node.strt = [0, 1, 1, 1, 1, 1, 0] ∧
    c10node.nrow = 1 ∧
    c10node.entries.length = 1 ∧
    c10node.strt.getLast? = some 0 ∧
    ¬ List.Chain' (· ≤ ·) c10node.strt := by
  have h1 : c10node.strt = [0, 1, 1, 1, 1, 1, 0] := by decide
  refine ⟨h1, by decide, by decide, by decide, ?_⟩
  rw [h1]
  simp [List.chain'_cons]

/-- C10 (amended): buffer-partition invariant of a constructed node.  The
offsets actually recorded during construction — `strt_[mat_strt]` through
`strt_[rup_strt + 1]`, which include the row starts exactly when a matrix
is stored — begin at 0, are monotone non-decreasing, and end at the total
number of entries stored, so the recorded segments partition the shared
buffer with no gap or overlap; the physical array `strt_` has length
`nrow + 6`, and it matches the claimed layout ("`nrow+1` row starts then
five markers", globally monotone with final offset = entry count) exactly
when the node stores a matrix. -/
theorem C10_amended_buffer_partition (stg : Nat) (core : SmiCoreData)
    (matrix : Option (List (List (Nat × Rat))))
    (dclo dcup dobj drlo drup : Option (List (Nat × Rat))) :
    (SmiNodeData.construct stg core matrix dclo dcup dobj drlo drup).strt.getD
        (SmiNodeData.construct stg core matrix dclo dcup dobj drlo drup).mat_strt 0
      = 0 ∧
    List.Chain' (· ≤ ·)
      ((SmiNodeData.construct stg core matrix dclo dcup dobj drlo drup).strt.take
        ((SmiNodeData.construct stg core matrix dclo dcup dobj drlo drup).rup_strt + 2)) ∧
    (SmiNodeData.construct stg core matrix dclo dcup dobj drlo drup).strt.getD
        ((SmiNodeData.construct stg core matrix dclo dcup dobj drlo drup).rup_strt + 1) 0
      = (SmiNodeData.construct stg core matrix dclo dcup dobj drlo drup).entries.length ∧
    (SmiNodeData.construct stg core matrix dclo dcup dobj drlo drup).strt.length
      = (SmiNodeData.construct stg core matrix dclo dcup dobj drlo drup).nrow + 6 ∧
    ((SmiNodeData.construct stg core matrix dclo dcup dobj drlo drup).has_matrix = true →
      List.Chain' (· ≤ ·)
        (SmiNodeData.construct stg core matrix dclo dcup dobj drlo drup).strt ∧
      (SmiNodeData.construct stg core matrix dclo dcup dobj drlo drup).strt.getLast?
        = some (SmiNodeData.construct stg core matrix dclo dcup dobj drlo
          drup).entries.length) := by
  have hplen : (constructMRows stg core matrix).length
      = if hasMat matrix then core.nRowInStage stg else 0 :=
    constructMRows_length stg core matrix
  refine ⟨?_, ?_, ?_, ?_, ?_⟩
  · rw [construct_strt]
    rw [show (SmiNodeData.construct stg core matrix dclo dcup dobj drlo drup).mat_strt = 0
      from rfl]
    rw [getD_append_left _ (by rw [cumLens_length]; omega)]
    exact cumLens_getD_zero _
  · rw [construct_strt]
    rw [show (SmiNodeData.construct stg core matrix dclo dcup dobj drlo drup).rup_strt + 2
        = (cumLens (constructSegs stg core matrix dclo dcup dobj drlo drup)).length from by
      rw [construct_rup_strt, cumLens_length, constructSegs_length]]
    rw [List.take_left]
    exact cumLens_chain _
  · rw [construct_strt]
    rw [show (SmiNodeData.construct stg core matrix dclo dcup dobj drlo drup).rup_strt + 1
        = (constructSegs stg core matrix dclo dcup dobj drlo drup).length from by
      rw [construct_rup_strt, constructSegs_length]]
    rw [getD_append_left _ (by rw [cumLens_length]; omega)]
    rw [cumLens_getD_last, construct_entries]
  · rw [construct_strt, List.length_append, cumLens_length, constructSegs_length,
      List.length_replicate, hplen]
    rw [show (SmiNodeData.construct stg core matrix dclo dcup dobj drlo drup).nrow
      = core.nRowInStage stg from rfl]
    by_cases h : hasMat matrix
    · simp [h]
    · simp [h]
      omega
  · intro hM
    have hM2 : hasMat matrix = true := hM
    have hpad : List.replicate (if hasMat matrix then 0 else core.nRowInStage stg)
        (0 : Nat) = [] := by
      simp [hM2]
    constructor
    · rw [construct_strt, hpad, List.append_nil]
      exact cumLens_chain _
    · rw [construct_strt, hpad, List.append_nil, cumLens_getLast, construct_entries]

/-- Witness for the amended C10 on the matrix-bearing scenario node: its
offset array starts at 0, its last recorded marker equals the stored
entry count, and (because a matrix is present) the whole `strt_` array is
monotone with final offset equal to the entry count. -/
theorem C10_witness :
    exScnMatNode.strt.getD exScnMatNode.mat_strt 0 = 0 ∧
    exScnMatNode.strt.getD (exScnMatNode.rup_strt + 1) 0
      = exScnMatNode.entries.length ∧
    List.Chain' (· ≤ ·) exScnMatNode.strt ∧
    exScnMatNode.strt.getLast? = some exScnMatNode.entries.length := by
  have h := C10_amended_buffer_partition 1 exCore (some [[(1, 3)]]) none none none none
    none
  exact ⟨h.1, h.2.2.1, (h.2.2.2.2 (by decide)).1, (h.2.2.2.2 (by decide)).2⟩

/-! ### Claim C8 -/

/-- Counterexample for C8: constructing a core with the out-of-range stage
label 5 (with `nstages = 1`) does not fail — `gutsOfConstructor` contains
no invalid-argument check at all.  Construction completes, the label is
copied verbatim and the per-stage node list is fully built.  (In the C++
source an out-of-range label instead causes out-of-bounds array writes,
undefined behaviour, not a reported invalid-argument condition.) -/
theorem C8_counterexample :
    specStageLabelsValid 1 1 1 [5] [0] = false ∧
    (SmiCoreData.gutsOfConstructor 1 1 1 [5] [0] [[]] [] [] [] [] []).colStage 0 = 5 ∧
    (SmiCoreData.gutsOfConstructor 1 1 1 [5] [0] [[]] [] [] [] [] []).nstag = 1 ∧
    (SmiCoreData.gutsOfConstructor 1 1 1 [5] [0] [[]] [] [] [] [] []).nodes.length
      = 1 := by
  exact ⟨by decide, by decide, rfl, by decide⟩

/-- C8 (amended): `SmiCoreData` construction performs no input validation
whatsoever: for every input — stage labels out of range included — the
construction completes, copies the stage-label arrays verbatim, and
builds exactly `nstages` core nodes.  There is no invalid-argument
failure path and hence also no partial-construction state to speak of. -/
theorem C8_amended_no_validation (nrow ncol nstag : Nat) (cstag rstag : List Nat)
    (matrix : List (List (Nat × Rat))) (dclo dcup dobj drlo drup : List (Nat × Rat)) :
    (∀ c, (SmiCoreData.gutsOfConstructor nrow ncol nstag cstag rstag matrix dclo dcup
      dobj drlo drup).colStage c = cstag.getD c 0) ∧
    (∀ r, (SmiCoreData.gutsOfConstructor nrow ncol nstag cstag rstag matrix dclo dcup
      dobj drlo drup).rowStage r = rstag.getD r 0) ∧
    (SmiCoreData.gutsOfConstructor nrow ncol nstag cstag rstag matrix dclo dcup dobj drlo
      drup).nstag = nstag ∧
    (SmiCoreData.gutsOfConstructor nrow ncol nstag cstag rstag matrix dclo dcup dobj drlo
      drup).nrow = nrow ∧
    (SmiCoreData.gutsOfConstructor nrow ncol nstag cstag rstag matrix dclo dcup dobj drlo
      drup).ncol = ncol ∧
    (SmiCoreData.gutsOfConstructor nrow ncol nstag cstag rstag matrix dclo dcup dobj drlo
      drup).nodes.length = nstag := by
  refine ⟨fun c => rfl, fun r => rfl, rfl, rfl, rfl, ?_⟩
  show (((List.range nstag).map (fun t =>
      (SmiNodeData.construct t (SmiCoreData.mapsCore nrow ncol nstag cstag rstag)
        (some matrix) (some dclo) (some dcup) (some dobj) (some drlo)
        (some drup)).setCoreNode)).map SmiNodeData.sortRows).length = nstag
  rw [List.length_map, List.length_map, List.length_range]

/- ### C9: quadratic-objective error handling -/

/-- If `findSome?` yields `some b`, some list element maps to `some b`. -/
theorem findSome_some_exists {α β : Type} (g : α → Option β) (l : List α)
    (b : β) (h : l.findSome? g = some b) : ∃ a ∈ l, g a = some b := by
  induction l with
  | nil => simp [List.findSome?] at h
  | cons a l ih =>
    rw [List.findSome?_cons] at h
    cases hga : g a with
    | some b0 =>
      rw [hga] at h
      have h2 : some b0 = some b := h
      exact ⟨a, List.mem_cons_self a l, hga.trans h2⟩
    | none =>
      rw [hga] at h
      have h2 : List.findSome? g l = some b := h
      obtain ⟨a0, ha0, hga0⟩ := ih h2
      exact ⟨a0, List.mem_cons_of_mem a ha0, hga0⟩

/-- Step-wise monotone `starts` offsets are monotone up to the bound. -/
theorem starts_getD_mono (starts : List Nat) (n : Nat)
    (hmono : ∀ k, k < n → starts.getD k 0 ≤ starts.getD (k + 1) 0) :
    ∀ a b, a ≤ b → b ≤ n → starts.getD a 0 ≤ starts.getD b 0 := by
  intro a b hab hbn
  induction b with
  | zero =>
    have : a = 0 := Nat.le_zero.mp hab
    rw [this]
  | succ b ih =>
    rcases Nat.lt_or_ge a (b + 1) with h1 | h2
    · exact Nat.le_trans
        (ih (Nat.lt_succ_iff.mp h1) (Nat.le_of_succ_le hbn))
        (hmono b (Nat.lt_of_succ_le hbn))
    · have : a = b + 1 := Nat.le_antisymm hab h2
      rw [this]

/-- A column with a quadratic entry contributes positively to `nqels`. -/
theorem nqels_pos_of_entry (core : SmiCoreData) (t : Nat)
    (starts indx : List Nat) (j c : Nat) (hj : j < core.ncol)
    (hjt : core.colStage j = t) (hc : c ∈ qColEntries starts indx j) :
    0 < nqels core t starts := by
  have hne : qColEntries starts indx j ≠ [] := by
    intro h
    rw [h] at hc
    exact absurd hc (List.not_mem_nil c)
  have hdiff : 0 < starts.getD (j + 1) 0 - starts.getD j 0 := by
    by_contra hd
    have hd0 : starts.getD (j + 1) 0 - starts.getD j 0 = 0 := by omega
    apply hne
    unfold qColEntries
    rw [hd0]
    rfl
  unfold nqels
  have hmem : (if core.colStage j = t then
      starts.getD (j + 1) 0 - starts.getD j 0 else 0) ∈
      (List.range core.ncol).map (fun j =>
        if core.colStage j = t then
          starts.getD (j + 1) 0 - starts.getD j 0 else 0) :=
    List.mem_map_of_mem _ (List.mem_range.mpr hj)
  have hle := List.single_le_sum (fun x _ => Nat.zero_le x) _ hmem
  rw [if_pos hjt] at hle
  omega

/-- `SmiNodeData::addQuadraticObjective` throws exactly when some column of
the node's stage owns a quadratic entry whose column lies in another
stage. -/
theorem nodeQuad_error_iff (core : SmiCoreData) (t : Nat)
    (starts indx : List Nat) :
    (∃ s, SmiNodeData.addQuadraticObjective core t starts indx
        = Except.error s)
      ↔ ∃ j, j < core.ncol ∧ core.colStage j = t ∧
          ∃ c ∈ qColEntries starts indx j, core.colStage c ≠ t := by
  unfold SmiNodeData.addQuadraticObjective
  by_cases hz : nqels core t starts = 0
  · rw [if_pos hz]
    constructor
    · rintro ⟨s, hs⟩
      exact absurd hs (by simp)
    · rintro ⟨j, hj, hjt, c, hc, _⟩
      exfalso
      have hpos := nqels_pos_of_entry core t starts indx j c hj hjt hc
      omega
  · rw [if_neg hz]
    cases hf : (List.range core.ncol).find? (fun j =>
        decide (core.colStage j = t) &&
          (qColEntries starts indx j).any
            (fun c => !(decide (core.colStage c = t)))) with
    | some j =>
      constructor
      · intro _
        have hjm : j ∈ List.range core.ncol := List.mem_of_find?_eq_some hf
        have hp := List.find?_some hf
        rw [Bool.and_eq_true] at hp
        have hjt : core.colStage j = t := by simpa using hp.1
        obtain ⟨c, hc, hcb⟩ := List.any_eq_true.mp hp.2
        exact ⟨j, List.mem_range.mp hjm, hjt, c, hc, by simpa using hcb⟩
      · intro _
        exact ⟨_, rfl⟩
    | none =>
      constructor
      · rintro ⟨s, hs⟩
        exact absurd hs (by simp)
      · rintro ⟨j, hj, hjt, c, hc, hct⟩
        exfalso
        have hnone := List.find?_eq_none.mp hf j (List.mem_range.mpr hj)
        apply hnone
        rw [Bool.and_eq_true]
        exact ⟨by simpa using hjt,
          List.any_eq_true.mpr ⟨c, hc, by simpa using hct⟩⟩

/-- **C9** (amended).  `addQuadraticObjectiveToCore`, given in-range stage
labels and monotone quadratic column starts, (1) returns an error exactly
when some quadratic entry couples columns of two different stages,
(2) with no quadratic entries succeeds and leaves `hasQdata` `false`, but
(3) whenever quadratic data is present — including every failing call —
it has already set `hasQdata` to `true`, so a failed call does *not*
leave the core in its prior no-quadratic-data state. -/
theorem C9_quadratic_error_and_flag (core : SmiCoreData)
    (starts indx : List Nat)
    (hv : ∀ c, c < core.ncol → core.colStage c < core.nstag)
    (hmono : ∀ k, k < core.ncol →
      starts.getD k 0 ≤ starts.getD (k + 1) 0) :
    ((∃ s, (SmiCoreData.addQuadraticObjectiveToCore core starts indx).1
        = Except.error s)
      ↔ ∃ j, j < core.ncol ∧
          ∃ c ∈ qColEntries starts indx j,
            core.colStage c ≠ core.colStage j) ∧
    (starts.getD core.ncol 0 = 0 →
      SmiCoreData.addQuadraticObjectiveToCore core starts indx
        = (Except.ok (), false)) ∧
    (qHasData core.ncol starts = true →
      (SmiCoreData.addQuadraticObjectiveToCore core starts indx).2
        = true) := by
  refine ⟨?_, ?_, ?_⟩
  · unfold SmiCoreData.addQuadraticObjectiveToCore
    cases hqb : qHasData core.ncol starts with
    | false =>
      rw [if_pos rfl]
      constructor
      · rintro ⟨s, hs⟩
        exact absurd hs (by simp)
      · rintro ⟨j, hj, c, hc, _⟩
        exfalso
        simp only [qHasData, Bool.not_eq_false', beq_iff_eq] at hqb
        have hne : qColEntries starts indx j ≠ [] := by
          intro h
          rw [h] at hc
          exact absurd hc (List.not_mem_nil c)
        have hdiff : 0 < starts.getD (j + 1) 0 - starts.getD j 0 := by
          by_contra hd
          have hd0 : starts.getD (j + 1) 0 - starts.getD j 0 = 0 := by omega
          apply hne
          unfold qColEntries
          rw [hd0]
          rfl
        have hmle := starts_getD_mono starts core.ncol hmono (j + 1)
          core.ncol (Nat.succ_le_of_lt hj) (Nat.le_refl _)
        omega
    | true =>
      rw [if_neg (by simp)]
      cases hfs : (List.range core.nstag).findSome? (fun t =>
          match SmiNodeData.addQuadraticObjective core t starts indx with
          | Except.error s => some s
          | Except.ok _ => none) with
      | some s =>
        constructor
        · intro _
          obtain ⟨t, htm, hgt⟩ := findSome_some_exists _ _ _ hfs
          cases hna : SmiNodeData.addQuadraticObjective core t starts indx with
          | ok u =>
            rw [hna] at hgt
            exact absurd hgt (by simp)
          | error s0 =>
            obtain ⟨j, hj, hjt, c, hc, hct⟩ :=
              (nodeQuad_error_iff core t starts indx).mp ⟨s0, hna⟩
            exact ⟨j, hj, c, hc, by rw [hjt]; exact hct⟩
        · intro _
          exact ⟨s, rfl⟩
      | none =>
        constructor
        · rintro ⟨s, hs⟩
          exact absurd hs (by simp)
        · rintro ⟨j, hj, c, hc, hct⟩
          exfalso
          have ht : core.colStage j < core.nstag := hv j hj
          have hnone := List.findSome?_eq_none_iff.mp hfs (core.colStage j)
            (List.mem_range.mpr ht)
          obtain ⟨s0, hna⟩ := (nodeQuad_error_iff core (core.colStage j)
            starts indx).mpr ⟨j, hj, rfl, c, hc, hct⟩
          rw [hna] at hnone
          exact absurd hnone (by simp)
  · intro hzero
    have hq : qHasData core.ncol starts = false := by
      unfold qHasData
      rw [hzero]
      rfl
    unfold SmiCoreData.addQuadraticObjectiveToCore
    rw [if_pos hq]
  · intro hq
    unfold SmiCoreData.addQuadraticObjectiveToCore
    rw [if_neg (by simp [hq])]
    cases (List.range core.nstag).findSome? (fun t =>
        match SmiNodeData.addQuadraticObjective core t starts indx with
        | Except.error s => some s
        | Except.ok _ => none) with
    | some s => rfl
    | none => rfl

/-- **C9 counterexample.**  On `exCore` (column 0 in stage 0, column 1 in
stage 1), the quadratic data `starts = [0, 1, 1]`, `indx = [1]` puts the
cross term `x0*x1` in column 0: the call fails with the cross-stage
exception, yet it leaves the core's `hasQdata` flag `true` — the core
does *not* remain in its prior state "without quadratic data" as the
claim asserts. -/
theorem C9_counterexample :
    (∃ s, (SmiCoreData.addQuadraticObjectiveToCore exCore [0, 1, 1] [1]).1
        = Except.error s) ∧
    (SmiCoreData.addQuadraticObjectiveToCore exCore [0, 1, 1] [1]).2
      = true := by
  exact ⟨⟨"Exception: Quadratic data for timestage includes data from timestage",
    by rfl⟩, by rfl⟩

/-- **C9 witness.**  The amended theorem applied to `exCore`: the cross
term `x0*x1` (starts `[0, 1, 1]`, index `[1]`) yields an error, empty
quadratic data (starts `[0, 0, 0]`) yields success with `hasQdata` still
`false`, and the failing call has set `hasQdata` to `true`. -/
theorem C9_quadratic_witness :
    (∃ s, (SmiCoreData.addQuadraticObjectiveToCore exCore [0, 1, 1] [1]).1
        = Except.error s) ∧
    SmiCoreData.addQuadraticObjectiveToCore exCore [0, 0, 0] []
      = (Except.ok (), false) ∧
    (SmiCoreData.addQuadraticObjectiveToCore exCore [0, 1, 1] [1]).2
      = true := by
  have h1 := C9_quadratic_error_and_flag exCore [0, 1, 1] [1]
    (by decide) (by decide)
  have h2 := C9_quadratic_error_and_flag exCore [0, 0, 0] []
    (by decide) (by decide)
  refine ⟨h1.1.mpr ⟨0, by decide, 1, by decide, by decide⟩,
    h2.2.1 (by decide), h1.2.2 (by decide)⟩
